import Mathlib

/-!
# microps: device / protocol dispatch core (`net.c`) and the dummy driver

A shallow embedding of `src/net.c` and `src/driver/dummy.c`.

* C `int` results are `Int` (`0` success, `-1` failure).
* `uint16_t` parameters are reduced `% 2 ^ 16` on entry, the `static unsigned int index`
  counter is reduced `% 2 ^ 32`; `size_t` lengths are `Nat`.
* Device records are supplied by the caller, so they live in a heap `Nat → net_device`
  addressed by pointer; a nullable pointer is an `Option Nat`.
* Protocol records are allocated inside `net_protocol_register` and linked at the head of
  `protocols`; the chain is the Lean list of the records, head first.
* Payload buffers live in a byte memory `mem`; `memcpy` reads it.
* Driver callbacks and the interrupt subsystem are external: callbacks are functions giving
  the `int` they return, and every call made to them is appended to `trace`.
* The loops of `net_run` and `net_shutdown` follow `next` pointers that the caller's records
  supply, so they take fuel and return `none` when the chain does not end within it.
* The logging calls (`errorf`, `infof`, `debugf`, `debugdump`) whose format is matched by
  their arguments have no effect on the state and are left out. The `infof` call of
  `net_device_register` passes no argument for the two conversions of its format; it is
  modelled, see `infof`.
-/

namespace Microps

/-! ## Data model -/

/-- Calls made to external collaborators: the driver operation set and the interrupt
subsystem. One entry is appended to the trace of the state per call. -/
inductive Event where
  | ops_open (dev : Nat)
  | ops_close (dev : Nat)
  | ops_transmit (dev type data len : Nat) (dst : Option Nat)
  | intr_run
  | intr_shutdown
  deriving DecidableEq, Repr

/-- The driver operation set `struct net_device_ops`: `open` and `close` may be `NULL`,
`transmit` is called without a check. A callback is given the byte memory and its arguments
and yields the `int` it returns. -/
structure net_device_ops where
  «open» : Option ((Nat → Nat) → Nat → Int)
  close : Option ((Nat → Nat) → Nat → Int)
  transmit : (Nat → Nat) → Nat → Nat → Nat → Nat → Option Nat → Int

/-- The fields of `struct net_device` that `net.c` and `dummy.c` read or write. -/
structure net_device where
  next : Option Nat
  index : Nat
  name : String
  type : Nat
  mtu : Nat
  flags : Nat
  hlen : Nat
  alen : Nat
  ops : net_device_ops

/-- The record `struct net_protocol_queue_entry`: originating device, length, and the
bytes of the flexible array member `data[]`. -/
structure net_protocol_queue_entry where
  dev : Nat
  len : Nat
  data : List Nat
  deriving DecidableEq, Repr

/-- Modelled from the spec: `struct queue_head` of util.h, which is not among the sources;
the spec has it as a FIFO of opaque entries with a live count. -/
structure queue_head where
  entries : List net_protocol_queue_entry
  num : Nat
  deriving DecidableEq, Repr

/-- The record `struct net_protocol` without its `next` link (the list order carries it);
`handler` is the address of the handler function. -/
structure net_protocol where
  type : Nat
  queue : queue_head
  handler : Nat
  deriving DecidableEq, Repr

/-- The file-scope state of `net.c` (`devices`, `protocols`, the `static` counter `index` of
`net_device_register`), the memory it works on, and the trace of external calls. -/
structure State where
  mem : Nat → Nat
  heap : Nat → net_device
  devices : Option Nat
  protocols : List net_protocol
  index : Nat
  trace : List Event

/-! ## Collaborators that are not among the sources -/

/-- Modelled from the spec: `NET_DEVICE_FLAG_UP` of net.h, which is not among the sources;
the spec has the up/down state as one bit-flag of the device flags, here bit 0. -/
def NET_DEVICE_FLAG_UP : Nat := 0x0001

/-- Modelled from the spec: the macro `NET_DEVICE_IS_UP` of net.h, which is not among the
sources; the value of `flags & NET_DEVICE_FLAG_UP`, nonzero when the device is up. -/
def NET_DEVICE_IS_UP (dev : net_device) : Nat := dev.flags &&& NET_DEVICE_FLAG_UP

/-- Modelled from the spec: `memory_alloc` of platform.h, which is not among the sources; a
fallible allocation whose outcome `ok` is decided by the platform, giving a zero-initialised
record on success and `NULL` otherwise. -/
def memory_alloc {α : Type} (ok : Bool) (zero : α) : Option α :=
  if ok then some zero else none

/-- Modelled from the spec: `queue_push` of util.c, which is not among the sources; appends
the entry at the tail of the FIFO and bumps the live count. -/
def queue_push (queue : queue_head) (entry : net_protocol_queue_entry) : queue_head :=
  { entries := queue.entries ++ [entry], num := queue.num + 1 }

/-- The effect of `memcpy(dst, src, len)` on the destination: the `len` bytes of `mem` that
start at address `src`. -/
def memcpy (mem : Nat → Nat) (src len : Nat) : List Nat :=
  (List.range len).map (fun i => mem (src + i))

/-- What `printf`'s `%d` writes for a 32-bit argument: `x` read as a two's complement
`int`, in decimal. -/
def fmt_d (x : Nat) : String :=
  if x % 2 ^ 32 < 2 ^ 31 then Nat.repr (x % 2 ^ 32) else "-" ++ Nat.repr (2 ^ 32 - x % 2 ^ 32)

/-- The string `snprintf(buf, size, ...)` leaves in `buf` when the formatted text is `s`:
at most `size - 1` characters of it; nothing is written when `size` is zero. -/
def snprintf (buf : String) (size : Nat) (s : String) : String :=
  if size = 0 then buf else String.mk (s.data.take (size - 1))

/-- The number of conversion specifications of a `printf` format: the `%` signs that do
not belong to a `%%` pair. -/
def fmt_conversions : List Char → Nat
  | [] => 0
  | '%' :: '%' :: rest => fmt_conversions rest
  | '%' :: rest => fmt_conversions rest + 1
  | _ :: rest => fmt_conversions rest

/-- A call of the `printf`-style logger `infof`, a macro of util.h, which is not among the
sources, with the format `fmt` followed by `nargs` arguments. When every conversion of the
format has its argument the call logs and returns. Otherwise it reads arguments that were
never passed and its behaviour is undefined: `returns` tells whether this call comes back
to its caller. The result is `some ()` when the call returns and `none` when it does not. -/
def infof (returns : Bool) (fmt : String) (nargs : Nat) : Option Unit :=
  if fmt_conversions fmt.data ≤ nargs then some ()
  else if returns then some () else none

/-! ## `net.c` -/

/-- Writes a device record back to the heap. -/
def State.store (st : State) (p : Nat) (d : net_device) : State :=
  { st with heap := Function.update st.heap p d }

/-- The function `net_device_register`; `IFNAMSIZ` is `sizeof(dev->name)`, declared in
net.h, which is not among the sources, and `log_returns` tells whether the `infof` call,
whose format is followed by no argument, returns. The second component is the state the
stores leave, which is reached before the `infof` call; the first is the value returned,
`none` when the `infof` call does not return. -/
def net_device_register (log_returns : Bool) (IFNAMSIZ : Nat) (st : State) (dev : Nat) :
    Option Int × State :=
  let d := st.heap dev
  -- dev->index = index++;
  let d := { d with index := st.index }
  let st := { st with index := (st.index + 1) % 2 ^ 32 }
  -- snprintf(dev->name, sizeof(dev->name), "net%d", dev->index);
  let d := { d with name := snprintf d.name IFNAMSIZ ("net" ++ fmt_d d.index) }
  -- dev->next = devices; devices = dev;
  let d := { d with next := st.devices }
  let st := { st.store dev d with devices := some dev }
  -- infof("registerd, dec=%s, type=0x%04x, dev->name, dev->type");
  match infof log_returns "registerd, dec=%s, type=0x%04x, dev->name, dev->type" 0 with
  | none => (none, st)
  | some _ => (some 0, st)

/-- The function `net_device_open`. -/
def net_device_open (st : State) (dev : Nat) : Int × State :=
  if NET_DEVICE_IS_UP (st.heap dev) ≠ 0 then
    (-1, st)
  else
    match (st.heap dev).ops.open with
    | some f =>
      let st := { st with trace := st.trace ++ [Event.ops_open dev] }
      if f st.mem dev < 0 then
        (-1, st)
      else
        let d := st.heap dev
        (0, st.store dev { d with flags := d.flags ||| NET_DEVICE_FLAG_UP })
    | none =>
      let d := st.heap dev
      (0, st.store dev { d with flags := d.flags ||| NET_DEVICE_FLAG_UP })

/-- The function `net_device_close`; `flags &= ~NET_DEVICE_FLAG_UP` on the 16-bit field. -/
def net_device_close (st : State) (dev : Nat) : Int × State :=
  if ¬ NET_DEVICE_IS_UP (st.heap dev) ≠ 0 then
    (-1, st)
  else
    match (st.heap dev).ops.close with
    | some f =>
      let st := { st with trace := st.trace ++ [Event.ops_close dev] }
      if f st.mem dev < 0 then
        (-1, st)
      else
        let d := st.heap dev
        (0, st.store dev { d with flags := d.flags &&& (0xFFFF ^^^ NET_DEVICE_FLAG_UP) })
    | none =>
      let d := st.heap dev
      (0, st.store dev { d with flags := d.flags &&& (0xFFFF ^^^ NET_DEVICE_FLAG_UP) })

/-- The function `net_device_output`. -/
def net_device_output (st : State) (dev type data len : Nat) (dst : Option Nat) :
    Int × State :=
  let type := type % 2 ^ 16
  if ¬ NET_DEVICE_IS_UP (st.heap dev) ≠ 0 then
    (-1, st)
  else if len > (st.heap dev).mtu then
    (-1, st)
  else
    let r := (st.heap dev).ops.transmit st.mem dev type data len dst
    let st := { st with trace := st.trace ++ [Event.ops_transmit dev type data len dst] }
    if r < 0 then (-1, st) else (0, st)

/-- The scan of `net_protocol_register`: whether some record of the chain has this type. -/
def net_protocol_register_scan (type : Nat) : List net_protocol → Bool
  | [] => false
  | proto :: rest => if type = proto.type then true else net_protocol_register_scan type rest

/-- The function `net_protocol_register`; `alloc_ok` is the outcome of its `memory_alloc`. -/
def net_protocol_register (alloc_ok : Bool) (st : State) (type handler : Nat) : Int × State :=
  let type := type % 2 ^ 16
  if net_protocol_register_scan type st.protocols then
    (-1, st)
  else
    match memory_alloc alloc_ok ({ type := 0, queue := ⟨[], 0⟩, handler := 0 } : net_protocol) with
    | none => (-1, st)
    | some proto =>
      let proto := { proto with type := type }
      let proto := { proto with handler := handler }
      (0, { st with protocols := proto :: st.protocols })

/-- The loop of `net_input_handler` over the protocol chain: the first record whose type
matches receives the entry, or the loop returns `-1` there when the allocation fails;
`none` when no record matches. -/
def net_input_handler_loop (alloc_ok : Bool) (mem : Nat → Nat) (type data len dev : Nat) :
    List net_protocol → Option (Int × List net_protocol)
  | [] => none
  | proto :: rest =>
    if type = proto.type then
      match memory_alloc alloc_ok ({ dev := 0, len := 0, data := [] } : net_protocol_queue_entry) with
      | none => some (-1, proto :: rest)
      | some entry =>
        let entry := { entry with dev := dev }
        let entry := { entry with len := len }
        let entry := { entry with data := memcpy mem data len }
        some (0, { proto with queue := queue_push proto.queue entry } :: rest)
    else
      match net_input_handler_loop alloc_ok mem type data len dev rest with
      | none => none
      | some (r, rest') => some (r, proto :: rest')

/-- The function `net_input_handler`; `alloc_ok` is the outcome of its `memory_alloc`. -/
def net_input_handler (alloc_ok : Bool) (st : State) (type data len dev : Nat) : Int × State :=
  let type := type % 2 ^ 16
  match net_input_handler_loop alloc_ok st.mem type data len dev st.protocols with
  | some (r, protocols) => (r, { st with protocols := protocols })
  | none => (0, st)

/-- The loop of `net_run` from `dev` on: opens each device and follows its `next` link.
`none` when `fuel` iterations do not reach the end of the chain. -/
def net_run_loop : Nat → State → Option Nat → Option State
  | _, st, none => some st
  | 0, _, some _ => none
  | fuel + 1, st, some dev =>
    let st := (net_device_open st dev).2
    net_run_loop fuel st (st.heap dev).next

/-- The function `net_run`; `intr_run_result` is what the external `intr_run` returns. -/
def net_run (fuel : Nat) (intr_run_result : Int) (st : State) : Option (Int × State) :=
  let st := { st with trace := st.trace ++ [Event.intr_run] }
  if intr_run_result = -1 then
    some (-1, st)
  else
    match net_run_loop fuel st st.devices with
    | none => none
    | some st => some (0, st)

/-- The loop of `net_shutdown` from `dev` on: closes each device and follows its `next`
link. `none` when `fuel` iterations do not reach the end of the chain. -/
def net_shutdown_loop : Nat → State → Option Nat → Option State
  | _, st, none => some st
  | 0, _, some _ => none
  | fuel + 1, st, some dev =>
    let st := (net_device_close st dev).2
    net_shutdown_loop fuel st (st.heap dev).next

/-- The function `net_shutdown`. -/
def net_shutdown (fuel : Nat) (st : State) : Option State :=
  match net_shutdown_loop fuel st st.devices with
  | none => none
  | some st => some { st with trace := st.trace ++ [Event.intr_shutdown] }

end Microps

namespace Microps

/-! ## Observations and sample data used to state the properties -/

/-- The FIFO of the protocol registered for `type`: the queue of the first record of the
chain carrying that type, which is the record `net_input_handler` delivers to. -/
def protocol_queue (st : State) (type : Nat) : Option queue_head :=
  (st.protocols.find? (fun p => decide (p.type = type))).map (fun p => p.queue)

/-- An operation set with a transmit that reports `r` and no open or close callback. -/
def sample_ops (r : Int) : net_device_ops :=
  { «open» := none, close := none, transmit := fun _ _ _ _ _ _ => r }

/-- A zero-filled device record with operation set `sample_ops 0`. -/
def sample_dev : net_device :=
  { next := none, index := 0, name := "", type := 0, mtu := 0, flags := 0, hlen := 0,
    alen := 0, ops := sample_ops 0 }

/-- The state at program start: both registries empty, the index counter zero, nothing
called yet; memory zero-filled and every device record zero-filled. -/
def initial : State :=
  { mem := fun _ => 0, heap := fun _ => sample_dev, devices := none, protocols := [],
    index := 0, trace := [] }

/-- An operation set whose open and close callbacks are present (open reports success,
close reports failure) and whose transmit reports 0. -/
def spy_ops : net_device_ops :=
  { «open» := some (fun _ _ => 0), close := some (fun _ _ => -1),
    transmit := fun _ _ _ _ _ _ => 0 }

/-- A state with protocol `0x0800` registered (handler at address 7) and devices that are
up with MTU 1500: the one at address 2 has the operation set `spy_ops`, the others
`sample_ops 0`. -/
def sample_state : State :=
  { initial with
    mem := fun a => a % 251
    heap := fun a =>
      if a = 2 then { sample_dev with flags := 1, mtu := 1500, ops := spy_ops }
      else { sample_dev with flags := 1, mtu := 1500 }
    protocols := [{ type := 0x0800, queue := ⟨[], 0⟩, handler := 7 }] }

/-- The state after registering protocols `0x0800` and `0x0806`, a rejected second
registration of `0x0800`, and the delivery of a four-byte frame for `0x0800`. -/
def sample_reached : State :=
  (net_input_handler true
    (net_protocol_register true
      (net_protocol_register true
        (net_protocol_register true initial 0x0800 7).2 0x0806 9).2 0x0800 11).2
    0x0800 100 4 1).2

/-- One core operation carried out on the state, with any arguments, any allocation outcome
and any result of `intr_run`. `net_run` and `net_shutdown` step only when they return;
`net_device_register` steps to the state its stores leave, whatever its `infof` call does. -/
inductive Step : State → State → Prop where
  | protocol_register (alloc_ok : Bool) (st : State) (type handler : Nat) :
      Step st (net_protocol_register alloc_ok st type handler).2
  | input_handler (alloc_ok : Bool) (st : State) (type data len dev : Nat) :
      Step st (net_input_handler alloc_ok st type data len dev).2
  | device_register (log_returns : Bool) (IFNAMSIZ : Nat) (st : State) (dev : Nat) :
      Step st (net_device_register log_returns IFNAMSIZ st dev).2
  | device_open (st : State) (dev : Nat) : Step st (net_device_open st dev).2
  | device_close (st : State) (dev : Nat) : Step st (net_device_close st dev).2
  | device_output (st : State) (dev type data len : Nat) (dst : Option Nat) :
      Step st (net_device_output st dev type data len dst).2
  | run (fuel : Nat) (intr_run_result : Int) (st : State) (r : Int × State)
      (h : net_run fuel intr_run_result st = some r) : Step st r.2
  | shutdown (fuel : Nat) (st st' : State) (h : net_shutdown fuel st = some st') : Step st st'

/-- The states reachable from a state whose protocol registry is empty. -/
inductive Reachable : State → Prop where
  | start (st : State) (h : st.protocols = []) : Reachable st
  | step (st st' : State) (hr : Reachable st) (hs : Step st st') : Reachable st'

/-- Successive calls of `net_device_register`, one per device pointer of the list, in
order, each call returning to its caller so that the next one is made: the values the calls
return and the state after the last one. -/
def net_device_register_seq (IFNAMSIZ : Nat) (st : State) :
    List Nat → List (Option Int) × State
  | [] => ([], st)
  | dev :: rest =>
    let r := net_device_register true IFNAMSIZ st dev
    let rs := net_device_register_seq IFNAMSIZ r.2 rest
    (r.1 :: rs.1, rs.2)

/-- The traversal order of a device chain: following `next` from the pointer `p` visits
exactly the devices of the list, in order, and then reaches `NULL`. For the registry, `p` is
`devices`. -/
def device_chain (heap : Nat → net_device) : Option Nat → List Nat → Prop
  | none, [] => True
  | none, _ :: _ => False
  | some _, [] => False
  | some p, q :: rest => p = q ∧ device_chain heap (heap p).next rest

/-- Whether a list is the traversal order of a chain can be computed. -/
instance device_chain_decidable (heap : Nat → net_device) :
    (p : Option Nat) → (L : List Nat) → Decidable (device_chain heap p L)
  | none, [] => isTrue trivial
  | none, _ :: _ => isFalse id
  | some _, [] => isFalse id
  | some p, q :: rest =>
    match Nat.decEq p q, device_chain_decidable heap (heap p).next rest with
    | isTrue h1, isTrue h2 => isTrue ⟨h1, h2⟩
    | isFalse h1, _ => isFalse (fun h => h1 h.1)
    | _, isFalse h2 => isFalse (fun h => h2 h.2)

/-- The driver calls one `net_device_open` of device `d` adds to the trace in state `st`:
the open callback, when the device is down and has one. -/
def open_calls (st : State) (d : Nat) : List Event :=
  if NET_DEVICE_IS_UP (st.heap d) = 0 ∧ ((st.heap d).ops.open).isSome = true
  then [Event.ops_open d] else []

/-- The driver calls one `net_device_close` of device `d` adds to the trace in state `st`:
the close callback, when the device is up and has one. -/
def close_calls (st : State) (d : Nat) : List Event :=
  if NET_DEVICE_IS_UP (st.heap d) ≠ 0 ∧ ((st.heap d).ops.close).isSome = true
  then [Event.ops_close d] else []

/-- A core operation together with its arguments, the outcome of its allocation or of its
`infof` call, the result of `intr_run` and the fuel of its loop. -/
inductive core_op where
  | protocol_register (alloc_ok : Bool) (type handler : Nat)
  | input_handler (alloc_ok : Bool) (type data len dev : Nat)
  | device_register (log_returns : Bool) (IFNAMSIZ dev : Nat)
  | device_open (dev : Nat)
  | device_close (dev : Nat)
  | device_output (dev type data len : Nat) (dst : Option Nat)
  | run (fuel : Nat) (intr_run_result : Int)
  | shutdown (fuel : Nat)
  deriving DecidableEq

/-- The state after a core operation, `none` when its loop does not end within the fuel;
for `net_device_register` the state its stores leave, whatever its `infof` call does. -/
def core_op_apply (st : State) : core_op → Option State
  | .protocol_register alloc_ok type handler =>
    some (net_protocol_register alloc_ok st type handler).2
  | .input_handler alloc_ok type data len dev =>
    some (net_input_handler alloc_ok st type data len dev).2
  | .device_register log_returns IFNAMSIZ dev =>
    some (net_device_register log_returns IFNAMSIZ st dev).2
  | .device_open dev => some (net_device_open st dev).2
  | .device_close dev => some (net_device_close st dev).2
  | .device_output dev type data len dst => some (net_device_output st dev type data len dst).2
  | .run fuel intr_run_result => (net_run fuel intr_run_result st).map (fun r => r.2)
  | .shutdown fuel => net_shutdown fuel st

/-- The state after a sequence of core operations carried out in order. -/
def core_ops_apply (st : State) : List core_op → Option State
  | [] => some st
  | op :: rest =>
    match core_op_apply st op with
    | none => none
    | some st' => core_ops_apply st' rest

/-- The relation between a state and a later one that differs from it at most in the trace
and in the flags of device records. -/
def same_but_flags (s s' : State) : Prop :=
  s'.mem = s.mem ∧ s'.devices = s.devices ∧ s'.protocols = s.protocols ∧ s'.index = s.index ∧
    ∀ q, ∃ fl, s'.heap q = { s.heap q with flags := fl }

/-! ## `driver/dummy.c` -/

/-- Modelled from the spec: `NET_DEVICE_TYPE_DUMMY` of net.h, which is not among the sources;
the spec has the device type as an enumerated tag with a null/dummy class. -/
def NET_DEVICE_TYPE_DUMMY : Nat := 0x0000

/-- The macro `DUMMY_MTU`, which is `UINT16_MAX`. -/
def DUMMY_MTU : Nat := 0xFFFF

/-- The function `dummy_transmit`: drops the data and returns 0. -/
def dummy_transmit (_mem : Nat → Nat) (_dev _type _data _len : Nat) (_dst : Option Nat) :
    Int :=
  0

/-- The operation set `dummy_ops`: only `transmit` is set. -/
def dummy_ops : net_device_ops :=
  { «open» := none, close := none, transmit := dummy_transmit }

/-- The operation set field of a zero-filled device record. In C the `ops` pointer of such a
record is `NULL` and the driver assigns it before the device is registered; the transmit
entry of this value stands for that unusable state and reports failure. -/
def zero_ops : net_device_ops :=
  { «open» := none, close := none, transmit := fun _ _ _ _ _ _ => -1 }

/-- A zero-filled device record, as `memory_alloc` returns it. -/
def zero_device : net_device :=
  { next := none, index := 0, name := "", type := 0, mtu := 0, flags := 0, hlen := 0,
    alen := 0, ops := zero_ops }

/-- The function `net_device_alloc` of `net.c`; `alloc_ok` is the outcome of its
`memory_alloc` and `p` the address of the block the allocator hands out. -/
def net_device_alloc (alloc_ok : Bool) (p : Nat) (st : State) : Option Nat × State :=
  match memory_alloc alloc_ok zero_device with
  | none => (none, st)
  | some d => (some p, st.store p d)

/-- The function `dummy_init`; `log_returns` is passed on to `net_device_register`. The
first component is the pointer returned (`some none` for `NULL`), `none` when
`net_device_register` does not return. -/
def dummy_init (alloc_ok log_returns : Bool) (p IFNAMSIZ : Nat) (st : State) :
    Option (Option Nat) × State :=
  match net_device_alloc alloc_ok p st with
  | (none, st) => (some none, st)
  | (some dev, st) =>
    let d := st.heap dev
    let d := { d with type := NET_DEVICE_TYPE_DUMMY }
    let d := { d with mtu := DUMMY_MTU }
    let d := { d with hlen := 0 }
    let d := { d with alen := 0 }
    let d := { d with ops := dummy_ops }
    let st := st.store dev d
    let r := net_device_register log_returns IFNAMSIZ st dev
    match r.1 with
    | none => (none, r.2)
    | some v => if v = -1 then (some none, r.2) else (some (some dev), r.2)

/-- A device record configured the way `dummy_init` configures a freshly allocated one,
with the MTU left open: type dummy, no header or address length, the operation set
`dummy_ops`, and the flags of a zero-filled record. -/
def dummy_configured (d : net_device) (mtu : Nat) : Prop :=
  d.type = NET_DEVICE_TYPE_DUMMY ∧ d.mtu = mtu ∧ d.hlen = 0 ∧ d.alen = 0 ∧
    d.ops = dummy_ops ∧ d.flags = 0

/-! ## The drain mechanism -/

/-- One invocation of a protocol handler: the handler's address and its three arguments
(the payload bytes, the length, the originating device). -/
structure handler_call where
  handler : Nat
  data : List Nat
  len : Nat
  dev : Nat
  deriving DecidableEq, Repr

/-- Modelled from the spec: the drain mechanism, which belongs to the interrupt subsystem
and is not among the sources; it dequeues the pending entries of every protocol in FIFO
order and invokes the owning protocol's handler once per dequeued entry, leaving the queues
empty. -/
def drain (st : State) : List handler_call × State :=
  (st.protocols.flatMap (fun p =>
      p.queue.entries.map (fun e =>
        ({ handler := p.handler, data := e.data, len := e.len, dev := e.dev } : handler_call))),
   { st with protocols := st.protocols.map (fun p => { p with queue := ⟨[], 0⟩ }) })

/-! ## More sample data -/

/-- Three down devices chained as a registry with traversal order 3, 2, 1: the device at
address 2 has the open callback of `spy_ops` (which succeeds), the one at address 3 an open
callback that fails, the one at address 1 none. -/
def sample_registry_down : State :=
  { initial with
    heap := fun a =>
      if a = 3 then
        { sample_dev with next := some 2,
                          ops := { spy_ops with «open» := some (fun _ _ => -1) } }
      else if a = 2 then { sample_dev with next := some 1, ops := spy_ops }
      else sample_dev
    devices := some 3 }

/-- Three up devices chained as a registry with traversal order 3, 2, 1: the device at
address 2 has the close callback of `spy_ops` (which always fails), the one at address 3 a
close callback that succeeds, the one at address 1 none. -/
def sample_registry_up : State :=
  { initial with
    heap := fun a =>
      if a = 3 then
        { sample_dev with flags := 1, next := some 2,
                          ops := { spy_ops with close := some (fun _ _ => 0) } }
      else if a = 2 then { sample_dev with flags := 1, next := some 1, ops := spy_ops }
      else { sample_dev with flags := 1 }
    devices := some 3 }

/-- The initial state with every device record up and carrying the operation set
`spy_ops`, whose close callback always fails; both registries are empty. -/
def sample_spy_up : State :=
  { initial with heap := fun _ => { sample_dev with flags := 1, ops := spy_ops } }

/-- The state before the end-to-end scenario: the initial state, whose device record at
address 9 is configured like a dummy device with MTU 1500. -/
def sample_scenario : State :=
  { initial with
    mem := fun a => a % 251
    heap := fun a =>
      if a = 9 then { zero_device with type := NET_DEVICE_TYPE_DUMMY, mtu := 1500,
                                       ops := dummy_ops }
      else sample_dev }

end Microps

namespace Microps

/-! ## The `infof` call of `net_device_register` -/

/-- The format of the `infof` call of `net_device_register` holds two conversions, and the
call passes no argument: whether it returns is not determined. -/
theorem infof_net_device_register (log_returns : Bool) :
    fmt_conversions "registerd, dec=%s, type=0x%04x, dev->name, dev->type".data = 2 ∧
    infof log_returns "registerd, dec=%s, type=0x%04x, dev->name, dev->type" 0
      = if log_returns then some () else none := by
  cases log_returns <;> exact ⟨by decide, by decide⟩

/-- The value `net_device_register` returns: 0 when its `infof` call returns. -/
theorem net_device_register_result (log_returns : Bool) (sz : Nat) (st : State) (dev : Nat) :
    (net_device_register log_returns sz st dev).1
      = if log_returns then some 0 else none := by
  simp only [net_device_register, (infof_net_device_register log_returns).2]
  cases log_returns <;> rfl

/-- The state the stores of `net_device_register` leave: the record of the device has the
old counter value as index, the name formatted from it, and the old head as `next`; the
counter is advanced and the device is the new head. -/
theorem net_device_register_state (log_returns : Bool) (sz : Nat) (st : State) (dev : Nat) :
    (net_device_register log_returns sz st dev).2
      = { State.store { st with index := (st.index + 1) % 2 ^ 32 } dev
            { st.heap dev with
              index := st.index
              name := snprintf (st.heap dev).name sz ("net" ++ fmt_d st.index)
              next := st.devices } with
          devices := some dev } := by
  simp only [net_device_register, (infof_net_device_register log_returns).2]
  cases log_returns <;> rfl

/-! ## Input path: `net_input_handler` -/

/-- When the chain has a first record `p` of type `t`, the loop delivers to it: it returns
`0` and the chain is the same except that `p` has the new entry pushed on its queue. -/
theorem net_input_handler_loop_hit (mem : Nat → Nat) (t data len d : Nat) :
    ∀ (ps : List net_protocol) (p : net_protocol),
      ps.find? (fun p => decide (p.type = t)) = some p →
      ∃ ps', net_input_handler_loop true mem t data len d ps = some (0, ps') ∧
        ps'.find? (fun p => decide (p.type = t))
          = some { p with queue := queue_push p.queue ⟨d, len, memcpy mem data len⟩ } ∧
        ∀ t', t' ≠ t → ps'.find? (fun p => decide (p.type = t'))
          = ps.find? (fun p => decide (p.type = t')) := by
  intro ps
  induction ps with
  | nil => intro p h; simp at h
  | cons q rest ih =>
    intro p h
    by_cases hq : q.type = t
    · have hp : q = p := by simpa [List.find?_cons, hq] using h
      subst hp
      refine ⟨{ q with queue := queue_push q.queue ⟨d, len, memcpy mem data len⟩ } :: rest,
        by simp [net_input_handler_loop, hq, memory_alloc], ?_, ?_⟩
      · simp [List.find?_cons, hq]
      · intro t' ht'
        have : ¬ q.type = t' := fun h' => ht' (h'.symm.trans hq)
        simp [List.find?_cons, this]
    · have hrest : rest.find? (fun p => decide (p.type = t)) = some p := by
        simpa [List.find?_cons, hq] using h
      obtain ⟨ps', h1, h2, h3⟩ := ih p hrest
      have hq' : ¬ t = q.type := fun h' => hq h'.symm
      refine ⟨q :: ps', by simp [net_input_handler_loop, hq', h1], ?_, ?_⟩
      · simp [List.find?_cons, hq, h2]
      · intro t' ht'
        simp [List.find?_cons, h3 t' ht']

/-- When no record of the chain has type `t`, the loop falls through. -/
theorem net_input_handler_loop_miss (ok : Bool) (mem : Nat → Nat) (t data len d : Nat) :
    ∀ (ps : List net_protocol), (∀ p ∈ ps, p.type ≠ t) →
      net_input_handler_loop ok mem t data len d ps = none := by
  intro ps
  induction ps with
  | nil => intro _; rfl
  | cons q rest ih =>
    intro h
    have hq : ¬ t = q.type := fun h' => h q (List.mem_cons_self _ _) h'.symm
    have hr := ih (fun p hp => h p (List.mem_cons_of_mem _ hp))
    simp [net_input_handler_loop, hq, hr]

/-- C1: when a protocol with the 16-bit type tag `t` is registered and the entry allocation
succeeds, `net_input_handler` returns 0 and the FIFO of that protocol is its previous
contents followed by exactly one new entry recording device `d`, length `len` and the `len`
bytes found at `data` at the time of the call; the FIFO of every other tag is as before; and
the queued bytes are a copy: whatever the memory holds afterwards, the FIFO is the same. -/
theorem net_input_handler_enqueues_copy (st : State) (t data len d : Nat) (q : queue_head)
    (ht : t < 2 ^ 16) (hq : protocol_queue st t = some q) :
    (net_input_handler true st t data len d).1 = 0 ∧
    protocol_queue (net_input_handler true st t data len d).2 t
      = some { entries := q.entries ++ [{ dev := d, len := len, data := memcpy st.mem data len }],
               num := q.num + 1 } ∧
    (memcpy st.mem data len).length = len ∧
    (∀ i, i < len → (memcpy st.mem data len)[i]? = some (st.mem (data + i))) ∧
    (∀ t', t' ≠ t → protocol_queue (net_input_handler true st t data len d).2 t'
      = protocol_queue st t') ∧
    (∀ mem' : Nat → Nat,
      protocol_queue { (net_input_handler true st t data len d).2 with mem := mem' } t
        = some { entries := q.entries ++
                   [{ dev := d, len := len, data := memcpy st.mem data len }],
                 num := q.num + 1 }) := by
  unfold protocol_queue at hq
  obtain ⟨p, hp, hpq⟩ := Option.map_eq_some'.mp hq
  obtain ⟨ps', h1, h2, h3⟩ := net_input_handler_loop_hit st.mem t data len d st.protocols p hp
  have hmod : t % 2 ^ 16 = t := Nat.mod_eq_of_lt ht
  have hres : net_input_handler true st t data len d = (0, { st with protocols := ps' }) := by
    simp only [net_input_handler, hmod, h1]
  subst hpq
  refine ⟨by rw [hres], ?_, by simp [memcpy], ?_, ?_, ?_⟩
  · rw [hres]; simp [protocol_queue, h2, queue_push]
  · intro i hi
    simp [memcpy, List.getElem?_map, List.getElem?_range hi]
  · intro t' ht'
    rw [hres]; simp [protocol_queue, h3 t' ht']
  · intro mem'
    rw [hres]; simp [protocol_queue, h2, queue_push]

/-- Witness for C1: delivering four bytes for tag `0x0800` in the sample state. -/
theorem net_input_handler_enqueues_copy_witness :
    (0x0800 < 2 ^ 16 ∧ protocol_queue sample_state 0x0800 = some ⟨[], 0⟩) ∧
    (net_input_handler true sample_state 0x0800 100 4 1).1 = 0 ∧
    protocol_queue (net_input_handler true sample_state 0x0800 100 4 1).2 0x0800
      = some { entries := [] ++ [{ dev := 1, len := 4, data := memcpy sample_state.mem 100 4 }],
               num := 0 + 1 } ∧
    memcpy sample_state.mem 100 4 = [100, 101, 102, 103] :=
  have h := net_input_handler_enqueues_copy sample_state 0x0800 100 4 1 ⟨[], 0⟩
    (by decide) (by decide)
  ⟨⟨by decide, by decide⟩, h.1, h.2.1, by decide⟩

/-- C2: when no registered protocol carries the 16-bit type tag `t`, `net_input_handler`
returns 0 whatever the allocator would answer and the whole state, so the protocol registry
and every FIFO in it, is unchanged. -/
theorem net_input_handler_unknown_type (alloc_ok : Bool) (st : State) (t data len dev : Nat)
    (ht : t < 2 ^ 16) (hno : ∀ p ∈ st.protocols, p.type ≠ t) :
    net_input_handler alloc_ok st t data len dev = (0, st) := by
  have hmod : t % 2 ^ 16 = t := Nat.mod_eq_of_lt ht
  simp only [net_input_handler, hmod,
    net_input_handler_loop_miss alloc_ok st.mem t data len dev st.protocols hno]

/-- Witness for C2: tag `0x0806` is not registered in the sample state. -/
theorem net_input_handler_unknown_type_witness :
    (0x0806 < 2 ^ 16 ∧ ∀ p ∈ sample_state.protocols, p.type ≠ 0x0806) ∧
    net_input_handler true sample_state 0x0806 100 4 1 = (0, sample_state) :=
  ⟨⟨by decide, by decide⟩,
    net_input_handler_unknown_type true sample_state 0x0806 100 4 1 (by decide) (by decide)⟩

/-! ## Output path: `net_device_output` -/

/-- The result of `net_device_output` once both checks pass: one driver call, and the
return value decided by the sign of the driver's result. -/
theorem net_device_output_pass (st : State) (dev type data len : Nat) (dst : Option Nat)
    (hup : NET_DEVICE_IS_UP (st.heap dev) ≠ 0) (hlen : len ≤ (st.heap dev).mtu) :
    net_device_output st dev type data len dst
      = (if (st.heap dev).ops.transmit st.mem dev (type % 2 ^ 16) data len dst < 0
          then -1 else 0,
         { st with
           trace := st.trace ++ [Event.ops_transmit dev (type % 2 ^ 16) data len dst] }) := by
  have hle : ¬ len > (st.heap dev).mtu := by omega
  unfold net_device_output
  simp only [if_neg (not_not.mpr hup), if_neg hle]
  split <;> rfl

/-- C3: on a device whose UP flag is clear, `net_device_output` returns -1 for every type
tag, payload, length (above the MTU or not) and destination hint, and the state is
unchanged; in particular no call of the driver is added to the trace. -/
theorem net_device_output_down (st : State) (dev type data len : Nat) (dst : Option Nat)
    (hdown : NET_DEVICE_IS_UP (st.heap dev) = 0) :
    net_device_output st dev type data len dst = (-1, st) ∧
    (net_device_output st dev type data len dst).2.trace = st.trace := by
  have h : net_device_output st dev type data len dst = (-1, st) := by
    simp [net_device_output, hdown]
  exact ⟨h, by rw [h]⟩

/-- Witness for C3: the device at address 1 of the initial state is down; the length 2000 is
above its MTU. -/
theorem net_device_output_down_witness :
    NET_DEVICE_IS_UP (initial.heap 1) = 0 ∧
    (net_device_output initial 1 0x0800 100 2000 none = (-1, initial) ∧
     (net_device_output initial 1 0x0800 100 2000 none).2.trace = initial.trace) :=
  ⟨by decide, net_device_output_down initial 1 0x0800 100 2000 none (by decide)⟩

/-- C4: on a device that is up, a length strictly above the MTU makes `net_device_output`
return -1 with the state unchanged (no driver call in the trace), while a length equal to
the MTU passes the check: the driver's transmit is called. -/
theorem net_device_output_mtu (st : State) (dev type data len : Nat) (dst : Option Nat)
    (hup : NET_DEVICE_IS_UP (st.heap dev) ≠ 0) :
    (len > (st.heap dev).mtu →
      net_device_output st dev type data len dst = (-1, st) ∧
      (net_device_output st dev type data len dst).2.trace = st.trace) ∧
    (len = (st.heap dev).mtu →
      (net_device_output st dev type data len dst).2.trace
        = st.trace ++ [Event.ops_transmit dev (type % 2 ^ 16) data len dst]) := by
  constructor
  · intro hlen
    have h : net_device_output st dev type data len dst = (-1, st) := by
      simp [net_device_output, hup, hlen]
    exact ⟨h, by rw [h]⟩
  · intro hlen
    rw [net_device_output_pass st dev type data len dst hup (le_of_eq hlen)]

/-- Witness for C4: the device at address 1 of the sample state is up with MTU 1500. -/
theorem net_device_output_mtu_witness :
    NET_DEVICE_IS_UP (sample_state.heap 1) ≠ 0 ∧
    (net_device_output sample_state 1 0x0800 100 1501 none = (-1, sample_state) ∧
     (net_device_output sample_state 1 0x0800 100 1501 none).2.trace = sample_state.trace) ∧
    (net_device_output sample_state 1 0x0800 100 1500 none).2.trace
      = sample_state.trace ++ [Event.ops_transmit 1 (0x0800 % 2 ^ 16) 100 1500 none] :=
  have h := net_device_output_mtu sample_state 1 0x0800 100
  ⟨by decide, (h 1501 none (by decide)).1 (by decide),
    (h 1500 none (by decide)).2 (by decide)⟩

/-- C5: on a device that is up, for a length not above the MTU and a 16-bit type tag,
`net_device_output` calls the driver's transmit exactly once, with the device, type tag,
payload, length and destination hint it was given (one entry is appended to the trace and
nothing else in the state changes), and returns 0 exactly when the driver's result is
non-negative and -1 otherwise. -/
theorem net_device_output_delegates (st : State) (dev type data len : Nat) (dst : Option Nat)
    (hup : NET_DEVICE_IS_UP (st.heap dev) ≠ 0) (hlen : len ≤ (st.heap dev).mtu)
    (ht : type < 2 ^ 16) :
    (net_device_output st dev type data len dst).2
      = { st with trace := st.trace ++ [Event.ops_transmit dev type data len dst] } ∧
    ((net_device_output st dev type data len dst).1 = 0 ↔
      0 ≤ (st.heap dev).ops.transmit st.mem dev type data len dst) ∧
    ((st.heap dev).ops.transmit st.mem dev type data len dst < 0 →
      (net_device_output st dev type data len dst).1 = -1) := by
  have hmod : type % 2 ^ 16 = type := Nat.mod_eq_of_lt ht
  rw [net_device_output_pass st dev type data len dst hup hlen, hmod]
  refine ⟨rfl, ?_, ?_⟩
  · by_cases hr : (st.heap dev).ops.transmit st.mem dev type data len dst < 0
    · simp only [hr, if_true]
      constructor
      · intro h; exact absurd h (by decide)
      · intro h; omega
    · simp only [hr, if_false]
      exact ⟨fun _ => by omega, fun _ => trivial⟩
  · intro hr
    simp only [hr, if_true]

/-- Witness for C5: a 64-byte frame on the sample device, whose transmit reports 0. -/
theorem net_device_output_delegates_witness :
    (NET_DEVICE_IS_UP (sample_state.heap 1) ≠ 0 ∧ 64 ≤ (sample_state.heap 1).mtu ∧
      0x0800 < 2 ^ 16) ∧
    (net_device_output sample_state 1 0x0800 100 64 none).2
      = { sample_state with
          trace := sample_state.trace ++ [Event.ops_transmit 1 0x0800 100 64 none] } ∧
    (net_device_output sample_state 1 0x0800 100 64 none).1 = 0 :=
  have h := net_device_output_delegates sample_state 1 0x0800 100 64 none
    (by decide) (by decide) (by decide)
  ⟨⟨by decide, by decide, by decide⟩, h.1, h.2.1.mpr (by decide)⟩

/-! ## Protocol registry: `net_protocol_register` -/

/-- The scan finds a type exactly when some record of the chain carries it. -/
theorem net_protocol_register_scan_iff (t : Nat) (ps : List net_protocol) :
    net_protocol_register_scan t ps = true ↔ ∃ p ∈ ps, p.type = t := by
  induction ps with
  | nil => simp [net_protocol_register_scan]
  | cons q rest ih =>
    by_cases hq : t = q.type
    · simp [net_protocol_register_scan, hq]
    · have hq' : ¬ q.type = t := fun h => hq h.symm
      simp [net_protocol_register_scan, hq, hq', ih]

/-- C6: when a registered protocol already carries the 16-bit type tag `t`,
`net_protocol_register` returns -1 for every handler and every allocation outcome, and the
state is unchanged: the same records in the same order, each with its handler and queue. -/
theorem net_protocol_register_duplicate (alloc_ok : Bool) (st : State) (t h : Nat)
    (ht : t < 2 ^ 16) (hdup : ∃ p ∈ st.protocols, p.type = t) :
    net_protocol_register alloc_ok st t h = (-1, st) ∧
    (net_protocol_register alloc_ok st t h).2.protocols = st.protocols := by
  have hmod : t % 2 ^ 16 = t := Nat.mod_eq_of_lt ht
  have hscan := (net_protocol_register_scan_iff t st.protocols).mpr hdup
  have hres : net_protocol_register alloc_ok st t h = (-1, st) := by
    simp only [net_protocol_register, hmod, hscan, if_true]
  exact ⟨hres, by rw [hres]⟩

/-- Witness for C6: tag `0x0800` is registered in the sample state with handler 7. -/
theorem net_protocol_register_duplicate_witness :
    (0x0800 < 2 ^ 16 ∧ ∃ p ∈ sample_state.protocols, p.type = 0x0800) ∧
    net_protocol_register true sample_state 0x0800 9 = (-1, sample_state) ∧
    (net_protocol_register true sample_state 0x0800 9).2.protocols
      = [{ type := 0x0800, queue := ⟨[], 0⟩, handler := 7 }] :=
  have h := net_protocol_register_duplicate true sample_state 0x0800 9
    (by decide) (by decide)
  ⟨⟨by decide, by decide⟩, h.1, h.2⟩

/-- C7: when no registered protocol carries the 16-bit type tag `t` and the record
allocation succeeds, `net_protocol_register` returns 0 and the registry is one new record
with type `t`, handler `h` and an empty FIFO, placed ahead of the previous records, which
are unchanged; nothing else in the state changes. -/
theorem net_protocol_register_fresh (st : State) (t h : Nat)
    (ht : t < 2 ^ 16) (hnew : ∀ p ∈ st.protocols, p.type ≠ t) :
    net_protocol_register true st t h
      = (0, { st with
              protocols := { type := t, queue := { entries := [], num := 0 }, handler := h }
                :: st.protocols }) := by
  have hmod : t % 2 ^ 16 = t := Nat.mod_eq_of_lt ht
  have hscan : net_protocol_register_scan t st.protocols = false := by
    cases hs : net_protocol_register_scan t st.protocols with
    | false => rfl
    | true =>
      obtain ⟨p, hp, hpt⟩ := (net_protocol_register_scan_iff t st.protocols).mp hs
      exact absurd hpt (hnew p hp)
  simp only [net_protocol_register, hmod, hscan, memory_alloc, if_true, Bool.false_eq_true,
    if_false]

/-- Witness for C7: tag `0x0806` is new in the sample state. -/
theorem net_protocol_register_fresh_witness :
    (0x0806 < 2 ^ 16 ∧ ∀ p ∈ sample_state.protocols, p.type ≠ 0x0806) ∧
    net_protocol_register true sample_state 0x0806 9
      = (0, { sample_state with
              protocols := { type := 0x0806, queue := { entries := [], num := 0 }, handler := 9 }
                :: sample_state.protocols }) :=
  ⟨⟨by decide, by decide⟩,
    net_protocol_register_fresh sample_state 0x0806 9 (by decide) (by decide)⟩

/-! ## Uniqueness of type tags -/

/-- The loop of the input path returns a chain with the same type tags in the same order. -/
theorem net_input_handler_loop_types (ok : Bool) (mem : Nat → Nat) (t data len d : Nat) :
    ∀ (ps : List net_protocol) (r : Int) (ps' : List net_protocol),
      net_input_handler_loop ok mem t data len d ps = some (r, ps') →
      ps'.map (fun p => p.type) = ps.map (fun p => p.type) := by
  intro ps
  induction ps with
  | nil => intro r ps' h; simp [net_input_handler_loop] at h
  | cons q rest ih =>
    intro r ps' h
    by_cases hq : t = q.type
    · cases ok <;>
        simp [net_input_handler_loop, hq, memory_alloc] at h <;>
        obtain ⟨_, h2⟩ := h <;> subst h2 <;> simp
    · simp only [net_input_handler_loop, hq, if_false] at h
      cases hl : net_input_handler_loop ok mem t data len d rest with
      | none => simp [hl] at h
      | some res =>
        obtain ⟨r0, rest'⟩ := res
        simp only [hl, Option.some.injEq, Prod.mk.injEq] at h
        obtain ⟨_, h2⟩ := h
        subst h2
        simp [ih r0 rest' hl]

/-- The input path leaves the type tags of the registry as they are. -/
theorem net_input_handler_types (ok : Bool) (st : State) (t data len d : Nat) :
    (net_input_handler ok st t data len d).2.protocols.map (fun p => p.type)
      = st.protocols.map (fun p => p.type) := by
  simp only [net_input_handler]
  cases hl : net_input_handler_loop ok st.mem (t % 2 ^ 16) data len d st.protocols with
  | none => rfl
  | some res =>
    obtain ⟨r, ps'⟩ := res
    exact net_input_handler_loop_types ok st.mem (t % 2 ^ 16) data len d st.protocols r ps' hl

/-- The function `net_device_open` does not touch the protocol registry. -/
theorem net_device_open_protocols (st : State) (dev : Nat) :
    (net_device_open st dev).2.protocols = st.protocols := by
  unfold net_device_open
  dsimp only
  split
  · rfl
  · split
    · split <;> rfl
    · rfl

/-- The function `net_device_close` does not touch the protocol registry. -/
theorem net_device_close_protocols (st : State) (dev : Nat) :
    (net_device_close st dev).2.protocols = st.protocols := by
  unfold net_device_close
  dsimp only
  split
  · rfl
  · split
    · split <;> rfl
    · rfl

/-- The function `net_device_output` does not touch the protocol registry. -/
theorem net_device_output_protocols (st : State) (dev type data len : Nat)
    (dst : Option Nat) :
    (net_device_output st dev type data len dst).2.protocols = st.protocols := by
  unfold net_device_output
  dsimp only
  split
  · rfl
  · split
    · rfl
    · split <;> rfl

/-- The loop of `net_run` does not touch the protocol registry. -/
theorem net_run_loop_protocols :
    ∀ (fuel : Nat) (st : State) (dev : Option Nat) (st' : State),
      net_run_loop fuel st dev = some st' → st'.protocols = st.protocols := by
  intro fuel
  induction fuel with
  | zero =>
    intro st dev st' h
    cases dev with
    | none => simp [net_run_loop] at h; rw [← h]
    | some d => simp [net_run_loop] at h
  | succ n ih =>
    intro st dev st' h
    cases dev with
    | none => simp [net_run_loop] at h; rw [← h]
    | some d =>
      simp only [net_run_loop] at h
      rw [ih _ _ _ h, net_device_open_protocols]

/-- The loop of `net_shutdown` does not touch the protocol registry. -/
theorem net_shutdown_loop_protocols :
    ∀ (fuel : Nat) (st : State) (dev : Option Nat) (st' : State),
      net_shutdown_loop fuel st dev = some st' → st'.protocols = st.protocols := by
  intro fuel
  induction fuel with
  | zero =>
    intro st dev st' h
    cases dev with
    | none => simp [net_shutdown_loop] at h; rw [← h]
    | some d => simp [net_shutdown_loop] at h
  | succ n ih =>
    intro st dev st' h
    cases dev with
    | none => simp [net_shutdown_loop] at h; rw [← h]
    | some d =>
      simp only [net_shutdown_loop] at h
      rw [ih _ _ _ h, net_device_close_protocols]

/-- Registration keeps the type tags pairwise distinct. -/
theorem net_protocol_register_nodup (ok : Bool) (st : State) (t h : Nat)
    (hnd : (st.protocols.map (fun p => p.type)).Nodup) :
    ((net_protocol_register ok st t h).2.protocols.map (fun p => p.type)).Nodup := by
  simp only [net_protocol_register]
  cases hs : net_protocol_register_scan (t % 2 ^ 16) st.protocols with
  | true => simpa using hnd
  | false =>
    cases ok with
    | false => simpa [memory_alloc] using hnd
    | true =>
      have hno : ∀ p ∈ st.protocols, ¬ p.type = t % 2 ^ 16 := by
        intro p hp hpt
        have := (net_protocol_register_scan_iff (t % 2 ^ 16) st.protocols).mpr ⟨p, hp, hpt⟩
        rw [hs] at this
        exact Bool.noConfusion this
      simp only [memory_alloc, if_true, Bool.false_eq_true, if_false, List.map_cons,
        List.nodup_cons, List.mem_map, not_exists, not_and]
      exact ⟨fun p hp => hno p hp, hnd⟩

/-- Every core operation keeps the type tags pairwise distinct. -/
theorem step_preserves_nodup {st st' : State} (hs : Step st st')
    (hnd : (st.protocols.map (fun p => p.type)).Nodup) :
    (st'.protocols.map (fun p => p.type)).Nodup := by
  cases hs with
  | protocol_register ok _ t h => exact net_protocol_register_nodup ok st t h hnd
  | input_handler ok _ t data len d => rw [net_input_handler_types]; exact hnd
  | device_register log sz _ dev => rw [net_device_register_state]; exact hnd
  | device_open _ dev => rw [net_device_open_protocols]; exact hnd
  | device_close _ dev => rw [net_device_close_protocols]; exact hnd
  | device_output _ dev t data len dst => rw [net_device_output_protocols]; exact hnd
  | run fuel res _ r h =>
    unfold net_run at h
    by_cases hres : res = -1
    · simp only [hres, if_true, Option.some.injEq] at h
      rw [← h]; exact hnd
    · simp only [hres, if_false] at h
      cases hl : net_run_loop fuel { st with trace := st.trace ++ [Event.intr_run] }
          st.devices with
      | none => simp [hl] at h
      | some s1 =>
        simp only [hl, Option.some.injEq] at h
        rw [← h]
        have := net_run_loop_protocols fuel _ _ s1 hl
        simp only [this]; exact hnd
  | shutdown fuel _ _ h =>
    unfold net_shutdown at h
    cases hl : net_shutdown_loop fuel st st.devices with
    | none => simp [hl] at h
    | some s1 =>
      simp only [hl, Option.some.injEq] at h
      rw [← h]
      have := net_shutdown_loop_protocols fuel _ _ s1 hl
      simp only [this]; exact hnd

/-- C8: in every state reachable from an empty protocol registry by core operations with
any arguments, any allocation outcomes and any result of `intr_run`, the type tags of the
registered protocols are pairwise distinct. -/
theorem reachable_type_tags_unique (st : State) (hr : Reachable st) :
    (st.protocols.map (fun p => p.type)).Nodup := by
  induction hr with
  | start s h => simp [h]
  | step s s' _ hs ih => exact step_preserves_nodup hs ih

/-- Witness for C8: the sample run from the initial state, whose registry holds the two
tags `0x0806` and `0x0800`. -/
theorem reachable_type_tags_unique_witness :
    Reachable sample_reached ∧
    (sample_reached.protocols.map (fun p => p.type)).Nodup ∧
    sample_reached.protocols.map (fun p => p.type) = [0x0806, 0x0800] :=
  have hr : Reachable sample_reached :=
    Reachable.step _ _
      (Reachable.step _ _
        (Reachable.step _ _
          (Reachable.step _ _ (Reachable.start initial rfl)
            (Step.protocol_register true initial 0x0800 7))
          (Step.protocol_register true _ 0x0806 9))
        (Step.protocol_register true _ 0x0800 11))
      (Step.input_handler true _ 0x0800 100 4 1)
  ⟨hr, reachable_type_tags_unique sample_reached hr, by decide⟩

/-! ## Device registry: `net_device_register` -/

/-- Registering the devices of `xs ++ ys` is registering those of `xs`, then those of `ys`. -/
theorem net_device_register_seq_append (sz : Nat) :
    ∀ (xs ys : List Nat) (st : State),
      net_device_register_seq sz st (xs ++ ys)
        = ((net_device_register_seq sz st xs).1
             ++ (net_device_register_seq sz (net_device_register_seq sz st xs).2 ys).1,
           (net_device_register_seq sz (net_device_register_seq sz st xs).2 ys).2) := by
  intro xs
  induction xs with
  | nil => intro ys st; rfl
  | cons x rest ih =>
    intro ys st
    show net_device_register_seq sz st (x :: (rest ++ ys)) = _
    simp only [net_device_register_seq, ih, List.cons_append]

/-- The counter after a run of registrations: it advanced by one per call, modulo `2 ^ 32`. -/
theorem net_device_register_seq_index (sz : Nat) :
    ∀ (ds : List Nat) (st : State), st.index < 2 ^ 32 →
      (net_device_register_seq sz st ds).2.index = (st.index + ds.length) % 2 ^ 32 := by
  intro ds
  induction ds with
  | nil =>
    intro st h
    simp only [net_device_register_seq, List.length_nil, Nat.add_zero]
    exact (Nat.mod_eq_of_lt h).symm
  | cons d rest ih =>
    intro st h
    have h1 : (net_device_register true sz st d).2.index = (st.index + 1) % 2 ^ 32 := by
      rw [net_device_register_state]; rfl
    have h2 : (net_device_register true sz st d).2.index < 2 ^ 32 := by
      rw [h1]; exact Nat.mod_lt _ (by decide)
    simp only [net_device_register_seq, ih _ h2, h1, List.length_cons]
    omega

/-- The record of the device registered by call number `i` of a run, right after that call:
its index is the counter value `(st.index + i) % 2 ^ 32` and its name is what `snprintf`
leaves for `"net%d"` of that index. The state is the one the stores of the call leave when
made in the state after the first `i` calls, whether the `infof` call returns or not. -/
theorem net_device_register_seq_call (sz : Nat) (st : State) (ds : List Nat) (i dev : Nat)
    (hidx : st.index < 2 ^ 32) (hdev : ds[i]? = some dev) :
    (∀ log_returns, (net_device_register_seq sz st (ds.take (i + 1))).2
      = (net_device_register log_returns sz
          (net_device_register_seq sz st (ds.take i)).2 dev).2) ∧
    ((net_device_register_seq sz st (ds.take (i + 1))).2.heap dev).index
      = (st.index + i) % 2 ^ 32 ∧
    ∃ buf, ((net_device_register_seq sz st (ds.take (i + 1))).2.heap dev).name
      = snprintf buf sz ("net" ++ fmt_d ((st.index + i) % 2 ^ 32)) := by
  have hi : i < ds.length := by
    rcases Nat.lt_or_ge i ds.length with h | h
    · exact h
    · rw [List.getElem?_eq_none h] at hdev; exact Option.noConfusion hdev
  have htake : ds.take (i + 1) = ds.take i ++ [dev] := by
    rw [List.take_succ, hdev]; rfl
  have hlen : (ds.take i).length = i := by
    rw [List.length_take]; omega
  have hcnt := net_device_register_seq_index sz (ds.take i) st hidx
  rw [hlen] at hcnt
  have hstate : ∀ log_returns, (net_device_register_seq sz st (ds.take (i + 1))).2
      = (net_device_register log_returns sz
          (net_device_register_seq sz st (ds.take i)).2 dev).2 := by
    intro log_returns
    rw [htake, net_device_register_seq_append]
    simp only [net_device_register_seq, net_device_register_state]
  refine ⟨hstate, ?_, ?_⟩
  · rw [hstate true, net_device_register_state]
    simp only [State.store, Function.update_same, hcnt]
  · rw [hstate true, net_device_register_state]
    simp only [State.store, Function.update_same, hcnt]
    exact ⟨_, rfl⟩

/-- The text `"net%d"` of an index below `2 ^ 31` fits a name buffer of 14 bytes or more. -/
theorem snprintf_net_fits (buf : String) (sz x : Nat) (hx : x < 2 ^ 31) (hsz : 14 ≤ sz) :
    snprintf buf sz ("net" ++ fmt_d x) = "net" ++ Nat.repr x := by
  have hmod : x % 2 ^ 32 = x := Nat.mod_eq_of_lt (by omega)
  have hlen : (Nat.repr x).length ≤ 10 := Nat.repr_length x 10 (by decide) (by omega)
  have hsz0 : ¬ sz = 0 := by omega
  simp only [snprintf, fmt_d, hmod, hx, if_true, hsz0, if_false]
  have : ("net" ++ Nat.repr x).data.length ≤ sz - 1 := by
    have : ("net" ++ Nat.repr x).length = 3 + (Nat.repr x).length := by
      rw [String.length_append]; rfl
    change ("net" ++ Nat.repr x).length ≤ sz - 1
    omega
  rw [List.take_of_length_le this]

/-- What `snprintf` leaves in a buffer of at least one byte does not depend on what the
buffer held. -/
theorem snprintf_buffer_irrelevant (buf buf' : String) (sz : Nat) (s : String)
    (hsz : 0 < sz) : snprintf buf sz s = snprintf buf' sz s := by
  have hsz0 : ¬ sz = 0 := by omega
  simp only [snprintf, hsz0, if_false]

/-- C9, as amended: in a process where `net_device_register` has not been called before
(the counter is 0), call number `i` (0-based) of N successive calls returns 0 whenever its
`infof` call returns (and returns nothing otherwise); it assigns index `i % 2 ^ 32`, hence
index `i` itself throughout the first `2 ^ 32` calls; the name it writes into a buffer of at
least one byte is a function of the assigned index alone, the same for every call that
assigns the same index; and for an assigned index below `2 ^ 31` and a name buffer of at
least 14 bytes that name is "net" followed by the decimal representation of the index. -/
theorem net_device_register_seq_assigns (IFNAMSIZ : Nat) (st : State) (ds : List Nat)
    (hfresh : st.index = 0) :
    ∀ i dev, ds[i]? = some dev →
      (∀ log_returns,
        (net_device_register log_returns IFNAMSIZ
          (net_device_register_seq IFNAMSIZ st (ds.take i)).2 dev).1
          = if log_returns then some 0 else none) ∧
      (∀ log_returns,
        (net_device_register_seq IFNAMSIZ st (ds.take (i + 1))).2
          = (net_device_register log_returns IFNAMSIZ
              (net_device_register_seq IFNAMSIZ st (ds.take i)).2 dev).2) ∧
      ((net_device_register_seq IFNAMSIZ st (ds.take (i + 1))).2.heap dev).index
        = i % 2 ^ 32 ∧
      (i < 2 ^ 32 →
        ((net_device_register_seq IFNAMSIZ st (ds.take (i + 1))).2.heap dev).index = i) ∧
      (0 < IFNAMSIZ →
        ((net_device_register_seq IFNAMSIZ st (ds.take (i + 1))).2.heap dev).name
          = snprintf "" IFNAMSIZ ("net" ++ fmt_d (i % 2 ^ 32))) ∧
      (0 < IFNAMSIZ → ∀ j dev', ds[j]? = some dev' → j % 2 ^ 32 = i % 2 ^ 32 →
        ((net_device_register_seq IFNAMSIZ st (ds.take (j + 1))).2.heap dev').name
          = ((net_device_register_seq IFNAMSIZ st (ds.take (i + 1))).2.heap dev).name) ∧
      (i % 2 ^ 32 < 2 ^ 31 → 14 ≤ IFNAMSIZ →
        ((net_device_register_seq IFNAMSIZ st (ds.take (i + 1))).2.heap dev).name
          = "net" ++ Nat.repr (i % 2 ^ 32)) := by
  intro i dev hdev
  have hidx : st.index < 2 ^ 32 := by rw [hfresh]; decide
  obtain ⟨h0, h1, buf, h2⟩ := net_device_register_seq_call IFNAMSIZ st ds i dev hidx hdev
  rw [hfresh, Nat.zero_add] at h1 h2
  refine ⟨fun log_returns => net_device_register_result log_returns IFNAMSIZ _ dev, h0, h1,
    ?_, ?_, ?_, ?_⟩
  · intro hi
    rw [h1, Nat.mod_eq_of_lt hi]
  · intro hsz
    rw [h2]
    exact snprintf_buffer_irrelevant buf "" IFNAMSIZ _ hsz
  · intro hsz j dev' hdev' hij
    obtain ⟨_, _, buf', h2'⟩ :=
      net_device_register_seq_call IFNAMSIZ st ds j dev' hidx hdev'
    rw [hfresh, Nat.zero_add] at h2'
    rw [h2, h2', hij]
    exact snprintf_buffer_irrelevant buf' buf IFNAMSIZ _ hsz
  · intro hi hsz
    rw [h2]
    exact snprintf_net_fits buf IFNAMSIZ (i % 2 ^ 32) hi hsz

/-- Witness for C9 as amended: three devices registered from the initial state with a
16-byte name buffer; the third call returns 0 when its `infof` call returns, and gives the
device at address 7 index 2 and the name "net2". -/
theorem net_device_register_seq_assigns_witness :
    (initial.index = 0 ∧ [5, 6, 7][2]? = some 7) ∧
    (net_device_register true 16 (net_device_register_seq 16 initial ([5, 6, 7].take 2)).2 7).1
      = some 0 ∧
    (net_device_register false 16
      (net_device_register_seq 16 initial ([5, 6, 7].take 2)).2 7).1 = none ∧
    ((net_device_register_seq 16 initial ([5, 6, 7].take (2 + 1))).2.heap 7).index = 2 ∧
    ((net_device_register_seq 16 initial ([5, 6, 7].take (2 + 1))).2.heap 7).name = "net2" :=
  have h := net_device_register_seq_assigns 16 initial [5, 6, 7] rfl 2 7 rfl
  ⟨⟨rfl, rfl⟩, h.1 true, h.1 false, h.2.2.2.1 (by decide),
    (h.2.2.2.2.2.2 (by decide) (by decide)).trans (by decide)⟩

/-- Counterexample to C9 as stated: registering `2 ^ 32 + 1` devices (the device at address
`i` by call number `i`) from the initial state, the last call, number `2 ^ 32`, assigns
index 0 and not `2 ^ 32`: the index the first call assigned. -/
theorem net_device_register_seq_wraps :
    ((net_device_register_seq 16 initial (List.range (2 ^ 32 + 1))).2.heap (2 ^ 32)).index = 0 ∧
    ((net_device_register_seq 16 initial (List.range (2 ^ 32 + 1))).2.heap (2 ^ 32)).index
      ≠ 2 ^ 32 ∧
    ((net_device_register_seq 16 initial [0]).2.heap 0).index = 0 := by
  have hget : (List.range (2 ^ 32 + 1))[2 ^ 32]? = some (2 ^ 32) :=
    List.getElem?_range (Nat.lt_succ_self _)
  have htake : (List.range (2 ^ 32 + 1)).take (2 ^ 32 + 1) = List.range (2 ^ 32 + 1) :=
    List.take_of_length_le (le_of_eq (List.length_range _))
  have h := (net_device_register_seq_call 16 initial (List.range (2 ^ 32 + 1)) (2 ^ 32)
    (2 ^ 32) (by decide) hget).2.1
  rw [htake] at h
  have h0 : (initial.index + 2 ^ 32) % 2 ^ 32 = 0 := by decide
  rw [h0] at h
  exact ⟨h, by rw [h]; decide, by decide⟩

/-! ## Device lifecycle: `net_device_open` -/

/-- C10: on a device whose UP flag is set, `net_device_open` returns -1 and the state is
unchanged: no call of the open callback is added to the trace, and the device keeps its
flags and so stays up. -/
theorem net_device_open_already_up (st : State) (dev : Nat)
    (hup : NET_DEVICE_IS_UP (st.heap dev) ≠ 0) :
    net_device_open st dev = (-1, st) ∧
    (net_device_open st dev).2.trace = st.trace ∧
    ((net_device_open st dev).2.heap dev).flags = (st.heap dev).flags ∧
    NET_DEVICE_IS_UP ((net_device_open st dev).2.heap dev) ≠ 0 := by
  have h : net_device_open st dev = (-1, st) := by
    simp only [net_device_open, hup, not_false_eq_true, ne_eq, if_true]
  rw [h]
  exact ⟨rfl, rfl, rfl, hup⟩

/-- Witness for C10: the device at address 2 of the sample state is up and has an open
callback. -/
theorem net_device_open_already_up_witness :
    (NET_DEVICE_IS_UP (sample_state.heap 2) ≠ 0 ∧
      ((sample_state.heap 2).ops.open).isSome = true) ∧
    net_device_open sample_state 2 = (-1, sample_state) ∧
    (net_device_open sample_state 2).2.trace = [] :=
  have h := net_device_open_already_up sample_state 2 (by decide)
  ⟨⟨by decide, rfl⟩, h.1, h.2.1⟩

/-- Setting `NET_DEVICE_FLAG_UP` in the flags makes the device up. -/
theorem flag_up_set (x : Nat) : (x ||| NET_DEVICE_FLAG_UP) &&& NET_DEVICE_FLAG_UP ≠ 0 := by
  show (x ||| 1) &&& 1 ≠ 0
  rw [Nat.and_one_is_mod]
  have h : (x ||| 1).testBit 0 = true := by simp [Nat.testBit_or]
  rw [Nat.testBit_zero] at h
  have := of_decide_eq_true h
  omega

/-- Clearing `NET_DEVICE_FLAG_UP` in the 16-bit flags makes the device down. -/
theorem flag_up_cleared (x : Nat) :
    (x &&& (0xFFFF ^^^ NET_DEVICE_FLAG_UP)) &&& NET_DEVICE_FLAG_UP = 0 := by
  rw [Nat.and_assoc]
  have h : ((0xFFFF ^^^ NET_DEVICE_FLAG_UP) &&& NET_DEVICE_FLAG_UP : Nat) = 0 := by decide
  rw [h, Nat.and_zero]

/-- The result of `net_device_open` on a down device without an open callback. -/
theorem net_device_open_absent (st : State) (dev : Nat)
    (hdown : NET_DEVICE_IS_UP (st.heap dev) = 0) (hnone : (st.heap dev).ops.open = none) :
    net_device_open st dev
      = (0, st.store dev { st.heap dev with
                           flags := (st.heap dev).flags ||| NET_DEVICE_FLAG_UP }) := by
  unfold net_device_open
  simp only [hdown, ne_eq, not_true_eq_false, if_false, hnone]

/-- The result of `net_device_open` on a down device with the open callback `f`. -/
theorem net_device_open_present (st : State) (dev : Nat) (f : (Nat → Nat) → Nat → Int)
    (hdown : NET_DEVICE_IS_UP (st.heap dev) = 0) (hf : (st.heap dev).ops.open = some f) :
    net_device_open st dev
      = if f st.mem dev < 0 then
          (-1, { st with trace := st.trace ++ [Event.ops_open dev] })
        else
          (0, State.store { st with trace := st.trace ++ [Event.ops_open dev] } dev
                { st.heap dev with flags := (st.heap dev).flags ||| NET_DEVICE_FLAG_UP }) := by
  unfold net_device_open
  simp only [hdown, ne_eq, not_true_eq_false, if_false, hf]

/-- The result of `net_device_close` on an up device without a close callback. -/
theorem net_device_close_absent (st : State) (dev : Nat)
    (hup : NET_DEVICE_IS_UP (st.heap dev) ≠ 0) (hnone : (st.heap dev).ops.close = none) :
    net_device_close st dev
      = (0, st.store dev { st.heap dev with
                           flags := (st.heap dev).flags
                             &&& (0xFFFF ^^^ NET_DEVICE_FLAG_UP) }) := by
  unfold net_device_close
  simp only [if_neg (not_not.mpr hup), hnone]

/-- The result of `net_device_close` on an up device with the close callback `f`. -/
theorem net_device_close_present (st : State) (dev : Nat) (f : (Nat → Nat) → Nat → Int)
    (hup : NET_DEVICE_IS_UP (st.heap dev) ≠ 0) (hf : (st.heap dev).ops.close = some f) :
    net_device_close st dev
      = if f st.mem dev < 0 then
          (-1, { st with trace := st.trace ++ [Event.ops_close dev] })
        else
          (0, State.store { st with trace := st.trace ++ [Event.ops_close dev] } dev
                { st.heap dev with
                  flags := (st.heap dev).flags &&& (0xFFFF ^^^ NET_DEVICE_FLAG_UP) }) := by
  unfold net_device_close
  simp only [if_neg (not_not.mpr hup), hf]

/-- The result of `net_device_close` on a down device. -/
theorem net_device_close_down (st : State) (dev : Nat)
    (hdown : NET_DEVICE_IS_UP (st.heap dev) = 0) :
    net_device_close st dev = (-1, st) := by
  unfold net_device_close
  simp only [hdown, ne_eq, not_true_eq_false, not_false_eq_true, if_true]

/-- C11: on a device that is down, when the open callback is present and returns a negative
value `net_device_open` returns -1 and the device stays down; when the callback is absent,
or present and returns a non-negative value, `net_device_open` returns 0 and the device is
up afterwards. The callback is called once when present (one entry added to the trace) and
not at all when absent. -/
theorem net_device_open_down (st : State) (dev : Nat)
    (hdown : NET_DEVICE_IS_UP (st.heap dev) = 0) :
    (∀ f, (st.heap dev).ops.open = some f → f st.mem dev < 0 →
      (net_device_open st dev).1 = -1 ∧
      NET_DEVICE_IS_UP ((net_device_open st dev).2.heap dev) = 0 ∧
      (net_device_open st dev).2.trace = st.trace ++ [Event.ops_open dev]) ∧
    (∀ f, (st.heap dev).ops.open = some f → 0 ≤ f st.mem dev →
      (net_device_open st dev).1 = 0 ∧
      NET_DEVICE_IS_UP ((net_device_open st dev).2.heap dev) ≠ 0 ∧
      (net_device_open st dev).2.trace = st.trace ++ [Event.ops_open dev]) ∧
    ((st.heap dev).ops.open = none →
      (net_device_open st dev).1 = 0 ∧
      NET_DEVICE_IS_UP ((net_device_open st dev).2.heap dev) ≠ 0 ∧
      (net_device_open st dev).2.trace = st.trace) := by
  refine ⟨?_, ?_, ?_⟩
  · intro f hf hneg
    rw [net_device_open_present st dev f hdown hf, if_pos hneg]
    exact ⟨rfl, hdown, rfl⟩
  · intro f hf hpos
    have hnn : ¬ f st.mem dev < 0 := by omega
    rw [net_device_open_present st dev f hdown hf, if_neg hnn]
    refine ⟨rfl, ?_, rfl⟩
    simp only [State.store, Function.update_same, NET_DEVICE_IS_UP]
    exact flag_up_set _
  · intro hnone
    rw [net_device_open_absent st dev hdown hnone]
    refine ⟨rfl, ?_, rfl⟩
    simp only [State.store, Function.update_same, NET_DEVICE_IS_UP]
    exact flag_up_set _

/-- Witness for C11: the three down devices of the sample registry. Device 1 has no open
callback, the callback of device 2 succeeds, the callback of device 3 fails. -/
theorem net_device_open_down_witness :
    (NET_DEVICE_IS_UP (sample_registry_down.heap 1) = 0 ∧
      NET_DEVICE_IS_UP (sample_registry_down.heap 2) = 0 ∧
      NET_DEVICE_IS_UP (sample_registry_down.heap 3) = 0) ∧
    ((net_device_open sample_registry_down 1).1 = 0 ∧
      NET_DEVICE_IS_UP ((net_device_open sample_registry_down 1).2.heap 1) ≠ 0 ∧
      (net_device_open sample_registry_down 1).2.trace = sample_registry_down.trace) ∧
    ((net_device_open sample_registry_down 2).1 = 0 ∧
      NET_DEVICE_IS_UP ((net_device_open sample_registry_down 2).2.heap 2) ≠ 0 ∧
      (net_device_open sample_registry_down 2).2.trace
        = sample_registry_down.trace ++ [Event.ops_open 2]) ∧
    ((net_device_open sample_registry_down 3).1 = -1 ∧
      NET_DEVICE_IS_UP ((net_device_open sample_registry_down 3).2.heap 3) = 0 ∧
      (net_device_open sample_registry_down 3).2.trace
        = sample_registry_down.trace ++ [Event.ops_open 3]) :=
  ⟨⟨by decide, by decide, by decide⟩,
    (net_device_open_down sample_registry_down 1 (by decide)).2.2 rfl,
    (net_device_open_down sample_registry_down 2 (by decide)).2.1 (fun _ _ => 0) rfl
      (by decide),
    (net_device_open_down sample_registry_down 3 (by decide)).1 (fun _ _ => -1) rfl
      (by decide)⟩

/-- C12: `net_device_close` returns 0 exactly when the device is up and its close callback
is absent or returns a non-negative value; on success the device is down afterwards; on a
down device it returns -1 with the state unchanged, so the callback is not called and the
device stays down; when the callback of an up device returns a negative value the result
is -1 and the device stays up. -/
theorem net_device_close_cases (st : State) (dev : Nat) :
    ((net_device_close st dev).1 = 0 ↔
      NET_DEVICE_IS_UP (st.heap dev) ≠ 0 ∧
      ((st.heap dev).ops.close = none ∨
        ∃ f, (st.heap dev).ops.close = some f ∧ 0 ≤ f st.mem dev)) ∧
    ((net_device_close st dev).1 = 0 →
      NET_DEVICE_IS_UP ((net_device_close st dev).2.heap dev) = 0) ∧
    (NET_DEVICE_IS_UP (st.heap dev) = 0 →
      net_device_close st dev = (-1, st) ∧
      (net_device_close st dev).2.trace = st.trace ∧
      NET_DEVICE_IS_UP ((net_device_close st dev).2.heap dev) = 0) ∧
    (NET_DEVICE_IS_UP (st.heap dev) ≠ 0 →
      ∀ f, (st.heap dev).ops.close = some f → f st.mem dev < 0 →
        (net_device_close st dev).1 = -1 ∧
        NET_DEVICE_IS_UP ((net_device_close st dev).2.heap dev) ≠ 0) := by
  by_cases hup : NET_DEVICE_IS_UP (st.heap dev) = 0
  · have h := net_device_close_down st dev hup
    rw [h]
    refine ⟨⟨fun h0 => absurd (show (-1 : Int) = 0 from h0) (by decide), fun h0 => absurd hup h0.1⟩,
      fun h0 => absurd (show (-1 : Int) = 0 from h0) (by decide), fun _ => ⟨rfl, rfl, hup⟩, fun h0 => absurd hup h0⟩
  · cases hc : (st.heap dev).ops.close with
    | none =>
      rw [net_device_close_absent st dev hup hc]
      refine ⟨⟨fun _ => ⟨hup, Or.inl rfl⟩, fun _ => rfl⟩, ?_, fun h0 => absurd h0 hup, ?_⟩
      · intro _
        simp only [State.store, Function.update_same, NET_DEVICE_IS_UP]
        exact flag_up_cleared _
      · intro _ f hf
        exact Option.noConfusion hf
    | some g =>
      rw [net_device_close_present st dev g hup hc]
      by_cases hneg : g st.mem dev < 0
      · rw [if_pos hneg]
        refine ⟨⟨fun h0 => absurd (show (-1 : Int) = 0 from h0) (by decide), ?_⟩, fun h0 => absurd (show (-1 : Int) = 0 from h0) (by decide),
          fun h0 => absurd h0 hup, fun _ _ _ _ => ⟨rfl, hup⟩⟩
        rintro ⟨_, h1 | ⟨f, hf, hpos⟩⟩
        · exact Option.noConfusion h1
        · have : g = f := Option.some.inj hf
          subst this
          omega
      · rw [if_neg hneg]
        refine ⟨⟨fun _ => ⟨hup, Or.inr ⟨g, rfl, by omega⟩⟩, fun _ => rfl⟩, ?_,
          fun h0 => absurd h0 hup, ?_⟩
        · intro _
          simp only [State.store, Function.update_same, NET_DEVICE_IS_UP]
          exact flag_up_cleared _
        · intro _ f hf hfneg
          have : g = f := Option.some.inj hf
          subst this
          exact absurd hfneg hneg

/-- Witness for C12: device 3 of the up registry closes (its callback succeeds), device 2
stays up (its callback fails), and device 1 of the down registry is rejected. -/
theorem net_device_close_cases_witness :
    ((net_device_close sample_registry_up 3).1 = 0 ∧
      NET_DEVICE_IS_UP ((net_device_close sample_registry_up 3).2.heap 3) = 0) ∧
    ((net_device_close sample_registry_up 2).1 = -1 ∧
      NET_DEVICE_IS_UP ((net_device_close sample_registry_up 2).2.heap 2) ≠ 0) ∧
    net_device_close sample_registry_down 1 = (-1, sample_registry_down) :=
  have h3 := net_device_close_cases sample_registry_up 3
  have h30 := h3.1.mpr ⟨by decide, Or.inr ⟨fun _ _ => 0, rfl, by decide⟩⟩
  ⟨⟨h30, h3.2.1 h30⟩,
    (net_device_close_cases sample_registry_up 2).2.2.2 (by decide) (fun _ _ => -1) rfl
      (by decide),
    ((net_device_close_cases sample_registry_down 1).2.2.1 (by decide)).1⟩

/-! ## Orchestration: `net_run` with a failing interrupt subsystem -/

/-- C13: when `intr_run` returns -1, `net_run` returns -1 for every device registry, with
any fuel: apart from the `intr_run` call itself the state is unchanged, so no open callback
is called and every device record keeps its flags. -/
theorem net_run_intr_failure (fuel : Nat) (st : State) :
    net_run fuel (-1) st = some (-1, { st with trace := st.trace ++ [Event.intr_run] }) ∧
    (∀ r, net_run fuel (-1) st = some r →
      r.1 = -1 ∧ r.2.heap = st.heap ∧ r.2.devices = st.devices ∧
      r.2.trace = st.trace ++ [Event.intr_run]) := by
  have h : net_run fuel (-1) st
      = some (-1, { st with trace := st.trace ++ [Event.intr_run] }) := by
    simp only [net_run, if_true]
  refine ⟨h, ?_⟩
  intro r hr
  rw [h] at hr
  have := Option.some.inj hr
  subst this
  exact ⟨rfl, rfl, rfl, rfl⟩

/-- Witness for C13: the registry of three down devices, with no fuel at all. -/
theorem net_run_intr_failure_witness :
    net_run 0 (-1) sample_registry_down
      = some (-1, { sample_registry_down with
                    trace := sample_registry_down.trace ++ [Event.intr_run] }) ∧
    (∀ d, NET_DEVICE_IS_UP
        (({ sample_registry_down with
            trace := sample_registry_down.trace ++ [Event.intr_run] } : State).heap d)
      = NET_DEVICE_IS_UP (sample_registry_down.heap d)) :=
  ⟨(net_run_intr_failure 0 sample_registry_down).1, fun _ => rfl⟩

/-! ## Input path: allocation failure -/

/-- When the chain has a record of type `t` and the allocation fails, the loop returns -1
and the chain as it was. -/
theorem net_input_handler_loop_alloc_failure (mem : Nat → Nat) (t data len d : Nat) :
    ∀ (ps : List net_protocol), (∃ p ∈ ps, p.type = t) →
      net_input_handler_loop false mem t data len d ps = some (-1, ps) := by
  intro ps
  induction ps with
  | nil => rintro ⟨p, hp, _⟩; simp at hp
  | cons q rest ih =>
    rintro ⟨p, hp, hpt⟩
    by_cases hq : t = q.type
    · simp [net_input_handler_loop, hq, memory_alloc]
    · have hrest : ∃ p ∈ rest, p.type = t := by
        rcases List.mem_cons.mp hp with h | h
        · subst h; exact absurd hpt.symm hq
        · exact ⟨p, h, hpt⟩
      simp only [net_input_handler_loop, hq, if_false, ih hrest]

/-- C17: when a protocol with the 16-bit type tag `t` is registered and the allocation of
the queue entry fails, `net_input_handler` returns -1 and the state is unchanged: the frame
is not queued, and the FIFO of every registered protocol, the one of `t` included, is as
before. -/
theorem net_input_handler_alloc_failure (st : State) (t data len dev : Nat)
    (ht : t < 2 ^ 16) (hreg : ∃ p ∈ st.protocols, p.type = t) :
    net_input_handler false st t data len dev = (-1, st) ∧
    (net_input_handler false st t data len dev).2.protocols = st.protocols ∧
    (∀ t', protocol_queue (net_input_handler false st t data len dev).2 t'
      = protocol_queue st t') := by
  have hmod : t % 2 ^ 16 = t := Nat.mod_eq_of_lt ht
  have h : net_input_handler false st t data len dev = (-1, st) := by
    simp only [net_input_handler, hmod,
      net_input_handler_loop_alloc_failure st.mem t data len dev st.protocols hreg]
  rw [h]
  exact ⟨rfl, rfl, fun _ => rfl⟩

/-- Witness for C17: tag `0x0800` is registered in the sample state. -/
theorem net_input_handler_alloc_failure_witness :
    (0x0800 < 2 ^ 16 ∧ ∃ p ∈ sample_state.protocols, p.type = 0x0800) ∧
    net_input_handler false sample_state 0x0800 100 4 1 = (-1, sample_state) ∧
    protocol_queue (net_input_handler false sample_state 0x0800 100 4 1).2 0x0800
      = some ⟨[], 0⟩ :=
  have h := net_input_handler_alloc_failure sample_state 0x0800 100 4 1
    (by decide) (by decide)
  ⟨⟨by decide, by decide⟩, h.1, (h.2.2 0x0800).trans (by decide)⟩

/-! ## Traversal of the device registry -/

/-- A chain is read off the `next` fields of its own members only. -/
theorem device_chain_congr (h1 h2 : Nat → net_device) :
    ∀ (L : List Nat) (x : Option Nat), (∀ q ∈ L, (h1 q).next = (h2 q).next) →
      (device_chain h1 x L ↔ device_chain h2 x L) := by
  intro L
  induction L with
  | nil => intro x _; cases x <;> simp [device_chain]
  | cons q rest ih =>
    intro x h
    cases x with
    | none => simp [device_chain]
    | some p =>
      simp only [device_chain]
      constructor
      · rintro ⟨hpq, hc⟩
        subst hpq
        refine ⟨rfl, ?_⟩
        rw [← h p (List.mem_cons_self _ _)]
        exact (ih _ (fun q hq => h q (List.mem_cons_of_mem _ hq))).mp hc
      · rintro ⟨hpq, hc⟩
        subst hpq
        refine ⟨rfl, ?_⟩
        rw [h p (List.mem_cons_self _ _)]
        exact (ih _ (fun q hq => h q (List.mem_cons_of_mem _ hq))).mpr hc

/-- A pointer starts at most one chain. -/
theorem device_chain_unique (h : Nat → net_device) :
    ∀ (L1 L2 : List Nat) (x : Option Nat),
      device_chain h x L1 → device_chain h x L2 → L1 = L2 := by
  intro L1
  induction L1 with
  | nil =>
    intro L2 x h1 h2
    cases x with
    | none => cases L2 with
      | nil => rfl
      | cons _ _ => exact absurd h2 id
    | some p => exact absurd h1 id
  | cons q rest ih =>
    intro L2 x h1 h2
    cases x with
    | none => exact absurd h1 id
    | some p =>
      cases L2 with
      | nil => exact absurd h2 id
      | cons q2 rest2 =>
        obtain ⟨e1, c1⟩ := h1
        obtain ⟨e2, c2⟩ := h2
        rw [← e1, ← e2, ih rest2 _ c1 c2]

/-- Every member of a chain starts a chain of its own: a tail of the first. -/
theorem device_chain_tail (h : Nat → net_device) :
    ∀ (L : List Nat) (x : Option Nat) (q : Nat), device_chain h x L → q ∈ L →
      ∃ suf, suf.length < L.length ∧ device_chain h (h q).next suf := by
  intro L
  induction L with
  | nil => intro x q _ hq; simp at hq
  | cons p rest ih =>
    intro x q hc hq
    cases x with
    | none => exact absurd hc id
    | some p0 =>
      obtain ⟨e, c⟩ := hc
      subst e
      rcases List.mem_cons.mp hq with hqp | hqr
      · subst hqp
        exact ⟨rest, by simp, c⟩
      · obtain ⟨suf, hlen, hs⟩ := ih _ q c hqr
        exact ⟨suf, by simp; omega, hs⟩

/-- A chain that ends visits no device twice. -/
theorem device_chain_nodup (h : Nat → net_device) :
    ∀ (L : List Nat) (x : Option Nat), device_chain h x L → L.Nodup := by
  intro L
  induction L with
  | nil => intro _ _; exact List.nodup_nil
  | cons p rest ih =>
    intro x hc
    cases x with
    | none => exact absurd hc id
    | some p0 =>
      obtain ⟨e, c⟩ := hc
      subst e
      refine List.nodup_cons.mpr ⟨?_, ih _ c⟩
      intro hmem
      obtain ⟨suf, hlen, hs⟩ := device_chain_tail h rest _ p0 c hmem
      have := device_chain_unique h suf rest _ hs c
      subst this
      exact Nat.lt_irrefl _ hlen

/-- The relation `same_but_flags` holds between a state and itself. -/
theorem same_but_flags_refl (s : State) : same_but_flags s s :=
  ⟨rfl, rfl, rfl, rfl, fun q => ⟨(s.heap q).flags, rfl⟩⟩

/-- The relation `same_but_flags` composes. -/
theorem same_but_flags_trans {a b c : State} (h1 : same_but_flags a b)
    (h2 : same_but_flags b c) : same_but_flags a c := by
  obtain ⟨m1, d1, p1, i1, f1⟩ := h1
  obtain ⟨m2, d2, p2, i2, f2⟩ := h2
  refine ⟨m2.trans m1, d2.trans d1, p2.trans p1, i2.trans i1, ?_⟩
  intro q
  obtain ⟨fl1, e1⟩ := f1 q
  obtain ⟨fl2, e2⟩ := f2 q
  exact ⟨fl2, by rw [e2, e1]⟩

/-- Changing the trace and the flags of one record gives a state that is `same_but_flags`. -/
theorem same_but_flags_store (s : State) (tr : List Event) (d fl : Nat) :
    same_but_flags s
      (State.store { s with trace := tr } d { s.heap d with flags := fl }) := by
  refine ⟨rfl, rfl, rfl, rfl, ?_⟩
  intro q
  by_cases hq : q = d
  · subst hq
    exact ⟨fl, by simp [State.store]⟩
  · exact ⟨(s.heap q).flags, by simp [State.store, Function.update_noteq hq]⟩

/-- Changing the trace alone gives a state that is `same_but_flags`. -/
theorem same_but_flags_trace (s : State) (tr : List Event) :
    same_but_flags s { s with trace := tr } :=
  ⟨rfl, rfl, rfl, rfl, fun q => ⟨(s.heap q).flags, rfl⟩⟩

/-- The function `net_device_open` changes at most the trace and the flags of records. -/
theorem net_device_open_same_but_flags (st : State) (dev : Nat) :
    same_but_flags st (net_device_open st dev).2 := by
  unfold net_device_open
  dsimp only
  split
  · exact same_but_flags_refl st
  · split
    · split
      · exact same_but_flags_trace st _
      · exact same_but_flags_store st _ dev _
    · exact same_but_flags_store st st.trace dev _

/-- The function `net_device_close` changes at most the trace and the flags of records. -/
theorem net_device_close_same_but_flags (st : State) (dev : Nat) :
    same_but_flags st (net_device_close st dev).2 := by
  unfold net_device_close
  dsimp only
  split
  · exact same_but_flags_refl st
  · split
    · split
      · exact same_but_flags_trace st _
      · exact same_but_flags_store st _ dev _
    · exact same_but_flags_store st st.trace dev _

/-- The function `net_device_open` leaves the records of the other devices alone. -/
theorem net_device_open_other (st : State) (dev q : Nat) (hq : q ≠ dev) :
    (net_device_open st dev).2.heap q = st.heap q := by
  unfold net_device_open
  dsimp only
  split
  · rfl
  · split
    · split
      · rfl
      · simp [State.store, Function.update_noteq hq]
    · simp [State.store, Function.update_noteq hq]

/-- The function `net_device_close` leaves the records of the other devices alone. -/
theorem net_device_close_other (st : State) (dev q : Nat) (hq : q ≠ dev) :
    (net_device_close st dev).2.heap q = st.heap q := by
  unfold net_device_close
  dsimp only
  split
  · rfl
  · split
    · split
      · rfl
      · simp [State.store, Function.update_noteq hq]
    · simp [State.store, Function.update_noteq hq]

/-- A chain stays the traversal order in a later state that is `same_but_flags`. -/
theorem device_chain_same_but_flags {s s' : State} (h : same_but_flags s s')
    (x : Option Nat) (L : List Nat) :
    device_chain s'.heap x L ↔ device_chain s.heap x L := by
  apply device_chain_congr
  intro q _
  obtain ⟨fl, e⟩ := h.2.2.2.2 q
  rw [e]

/-- Over a registry with traversal order `L` and with fuel for every device, the loop of
`net_run` calls `net_device_open` once per device of `L`, in order. -/
theorem net_run_loop_chain :
    ∀ (L : List Nat) (fuel : Nat) (st : State) (x : Option Nat),
      device_chain st.heap x L → L.length ≤ fuel →
      net_run_loop fuel st x = some (L.foldl (fun s d => (net_device_open s d).2) st) := by
  intro L
  induction L with
  | nil =>
    intro fuel st x hc _
    cases x with
    | none => cases fuel <;> rfl
    | some p => exact absurd hc id
  | cons q rest ih =>
    intro fuel st x hc hfuel
    cases x with
    | none => exact absurd hc id
    | some p =>
      obtain ⟨e, c⟩ := hc
      subst e
      cases fuel with
      | zero => simp at hfuel
      | succ n =>
        have hs := net_device_open_same_but_flags st p
        have hnext : ((net_device_open st p).2.heap p).next = (st.heap p).next := by
          obtain ⟨fl, e⟩ := hs.2.2.2.2 p
          rw [e]
        have hc' : device_chain (net_device_open st p).2.heap
            ((net_device_open st p).2.heap p).next rest := by
          rw [hnext]; exact (device_chain_same_but_flags hs _ _).mpr c
        simp only [net_run_loop, List.foldl_cons]
        exact ih n _ _ hc' (by simpa using hfuel)

/-- Over a registry with traversal order `L` and with fuel for every device, the loop of
`net_shutdown` calls `net_device_close` once per device of `L`, in order. -/
theorem net_shutdown_loop_chain :
    ∀ (L : List Nat) (fuel : Nat) (st : State) (x : Option Nat),
      device_chain st.heap x L → L.length ≤ fuel →
      net_shutdown_loop fuel st x
        = some (L.foldl (fun s d => (net_device_close s d).2) st) := by
  intro L
  induction L with
  | nil =>
    intro fuel st x hc _
    cases x with
    | none => cases fuel <;> rfl
    | some p => exact absurd hc id
  | cons q rest ih =>
    intro fuel st x hc hfuel
    cases x with
    | none => exact absurd hc id
    | some p =>
      obtain ⟨e, c⟩ := hc
      subst e
      cases fuel with
      | zero => simp at hfuel
      | succ n =>
        have hs := net_device_close_same_but_flags st p
        have hnext : ((net_device_close st p).2.heap p).next = (st.heap p).next := by
          obtain ⟨fl, e⟩ := hs.2.2.2.2 p
          rw [e]
        have hc' : device_chain (net_device_close st p).2.heap
            ((net_device_close st p).2.heap p).next rest := by
          rw [hnext]; exact (device_chain_same_but_flags hs _ _).mpr c
        simp only [net_shutdown_loop, List.foldl_cons]
        exact ih n _ _ hc' (by simpa using hfuel)

/-- Visiting the devices of a list one after the other, with a visit that touches only the
record of the visited device, leaves the records of the devices outside the list alone. -/
theorem visit_all_other (visit : State → Nat → State)
    (hother : ∀ s d q, q ≠ d → (visit s d).heap q = s.heap q) :
    ∀ (L : List Nat) (st : State) (q : Nat), q ∉ L →
      (L.foldl visit st).heap q = st.heap q := by
  intro L
  induction L with
  | nil => intro st q _; rfl
  | cons d rest ih =>
    intro st q hq
    rw [List.foldl_cons, ih _ q (fun h => hq (List.mem_cons_of_mem _ h))]
    exact hother st d q (fun h => hq (h ▸ List.mem_cons_self _ _))

/-- Visiting the devices of a list with a visit that keeps everything but trace and flags
keeps everything but trace and flags. -/
theorem visit_all_same_but_flags (visit : State → Nat → State)
    (hsame : ∀ s d, same_but_flags s (visit s d)) :
    ∀ (L : List Nat) (st : State), same_but_flags st (L.foldl visit st) := by
  intro L
  induction L with
  | nil => intro st; exact same_but_flags_refl st
  | cons d rest ih =>
    intro st
    rw [List.foldl_cons]
    exact same_but_flags_trans (hsame st d) (ih _)

/-- In a run of visits over a duplicate-free list, the record a device ends with is the one
its own visit leaves, and that visit starts from a state in which the record and the memory
are those of the start. -/
theorem visit_all_at (visit : State → Nat → State)
    (hother : ∀ s d q, q ≠ d → (visit s d).heap q = s.heap q)
    (hsame : ∀ s d, same_but_flags s (visit s d)) :
    ∀ (L : List Nat) (st : State) (d : Nat), L.Nodup → d ∈ L →
      ∃ s, s.heap d = st.heap d ∧ s.mem = st.mem ∧
        (L.foldl visit st).heap d = (visit s d).heap d := by
  intro L
  induction L with
  | nil => intro st d _ hd; simp at hd
  | cons q rest ih =>
    intro st d hnd hd
    obtain ⟨hq, hrest⟩ := List.nodup_cons.mp hnd
    rw [List.foldl_cons]
    rcases List.mem_cons.mp hd with hdq | hdr
    · subst hdq
      exact ⟨st, rfl, rfl, visit_all_other visit hother rest _ d hq⟩
    · have hne : d ≠ q := fun h => hq (h ▸ hdr)
      obtain ⟨s, h1, h2, h3⟩ := ih (visit st q) d hrest hdr
      exact ⟨s, h1.trans (hother st q d hne), h2.trans (hsame st q).1, h3⟩

/-- The trace after a run of visits over a duplicate-free list: the calls of each visit, in
order, when the calls of a visit depend on the visited record and the memory alone. -/
theorem visit_all_trace (visit : State → Nat → State) (calls : State → Nat → List Event)
    (hother : ∀ s d q, q ≠ d → (visit s d).heap q = s.heap q)
    (hsame : ∀ s d, same_but_flags s (visit s d))
    (htrace : ∀ s d, (visit s d).trace = s.trace ++ calls s d)
    (hcalls : ∀ s s' d, s'.heap d = s.heap d → s'.mem = s.mem → calls s' d = calls s d) :
    ∀ (L : List Nat) (st : State), L.Nodup →
      (L.foldl visit st).trace = st.trace ++ L.flatMap (calls st) := by
  intro L
  induction L with
  | nil => intro st _; simp
  | cons q rest ih =>
    intro st hnd
    obtain ⟨hq, hrest⟩ := List.nodup_cons.mp hnd
    rw [List.foldl_cons, ih _ hrest, htrace, List.flatMap_cons, List.append_assoc]
    congr 2
    apply List.flatMap_congr
    intro d hd
    have hne : d ≠ q := fun h => hq (h ▸ hd)
    exact hcalls st (visit st q) d (hother st q d hne) (hsame st q).1

/-- The driver calls `net_device_open` adds to the trace. -/
theorem net_device_open_trace (st : State) (dev : Nat) :
    (net_device_open st dev).2.trace = st.trace ++ open_calls st dev := by
  by_cases hup : NET_DEVICE_IS_UP (st.heap dev) = 0
  · cases ho : (st.heap dev).ops.open with
    | none =>
      rw [net_device_open_absent st dev hup ho]
      simp [open_calls, ho, State.store]
    | some f =>
      rw [net_device_open_present st dev f hup ho]
      split <;> simp [open_calls, ho, hup, State.store]
  · have h : net_device_open st dev = (-1, st) := by
      simp only [net_device_open, hup, not_false_eq_true, ne_eq, if_true]
    rw [h]
    simp [open_calls, hup]

/-- The driver calls `net_device_close` adds to the trace. -/
theorem net_device_close_trace (st : State) (dev : Nat) :
    (net_device_close st dev).2.trace = st.trace ++ close_calls st dev := by
  by_cases hup : NET_DEVICE_IS_UP (st.heap dev) = 0
  · rw [net_device_close_down st dev hup]
    simp [close_calls, hup]
  · cases ho : (st.heap dev).ops.close with
    | none =>
      rw [net_device_close_absent st dev hup ho]
      simp [close_calls, ho, State.store]
    | some f =>
      rw [net_device_close_present st dev f hup ho]
      split <;> simp [close_calls, ho, hup, State.store]

/-- After `net_device_open` of a down device whose open callback is absent or returns a
non-negative value, the device is up. -/
theorem net_device_open_up_after (s : State) (d : Nat)
    (hdown : NET_DEVICE_IS_UP (s.heap d) = 0)
    (hok : (s.heap d).ops.open = none ∨
      ∃ f, (s.heap d).ops.open = some f ∧ 0 ≤ f s.mem d) :
    NET_DEVICE_IS_UP ((net_device_open s d).2.heap d) ≠ 0 := by
  rcases hok with hnone | ⟨f, hf, hpos⟩
  · rw [net_device_open_absent s d hdown hnone]
    simp only [State.store, Function.update_same, NET_DEVICE_IS_UP]
    exact flag_up_set _
  · have hnn : ¬ f s.mem d < 0 := by omega
    rw [net_device_open_present s d f hdown hf, if_neg hnn]
    simp only [State.store, Function.update_same, NET_DEVICE_IS_UP]
    exact flag_up_set _

/-- After `net_device_close` of an up device whose close callback is absent or returns a
non-negative value, the device is down. -/
theorem net_device_close_down_after (s : State) (d : Nat)
    (hup : NET_DEVICE_IS_UP (s.heap d) ≠ 0)
    (hok : (s.heap d).ops.close = none ∨
      ∃ f, (s.heap d).ops.close = some f ∧ 0 ≤ f s.mem d) :
    NET_DEVICE_IS_UP ((net_device_close s d).2.heap d) = 0 := by
  rcases hok with hnone | ⟨f, hf, hpos⟩
  · rw [net_device_close_absent s d hup hnone]
    simp only [State.store, Function.update_same, NET_DEVICE_IS_UP]
    exact flag_up_cleared _
  · have hnn : ¬ f s.mem d < 0 := by omega
    rw [net_device_close_present s d f hup hf, if_neg hnn]
    simp only [State.store, Function.update_same, NET_DEVICE_IS_UP]
    exact flag_up_cleared _

/-- After `net_device_close` of an up device whose close callback returns a negative value,
the device is still up. -/
theorem net_device_close_up_after (s : State) (d : Nat) (f : (Nat → Nat) → Nat → Int)
    (hup : NET_DEVICE_IS_UP (s.heap d) ≠ 0)
    (hf : (s.heap d).ops.close = some f) (hneg : f s.mem d < 0) :
    NET_DEVICE_IS_UP ((net_device_close s d).2.heap d) ≠ 0 := by
  rw [net_device_close_present s d f hup hf, if_pos hneg]
  exact hup

/-- The calls of an open depend on the visited record alone. -/
theorem open_calls_congr (s s' : State) (d : Nat) (h : s'.heap d = s.heap d) :
    open_calls s' d = open_calls s d := by
  simp only [open_calls, h]

/-- The calls of a close depend on the visited record alone. -/
theorem close_calls_congr (s s' : State) (d : Nat) (h : s'.heap d = s.heap d) :
    close_calls s' d = close_calls s d := by
  simp only [close_calls, h]

/-! ## Orchestration: `net_run` and `net_shutdown` over the registry -/

/-- C14, as amended: for a device registry that is a chain ending in `NULL`, with traversal
order `L`, when `intr_run` does not return -1 and the loop has fuel for every device,
`net_run` returns 0 whatever the opens return; it
calls `net_device_open` once per registered device, in traversal order; the open callbacks
called are those of the devices that were down and have one, in that order; and afterwards
every registered device that was down and whose open callback is absent or returns a
non-negative value is up, whatever happens to the other devices. -/
theorem net_run_opens_every_device (fuel : Nat) (r : Int) (st : State) (L : List Nat)
    (hchain : device_chain st.heap st.devices L) (hfuel : L.length ≤ fuel) (hr : r ≠ -1) :
    ∃ st', net_run fuel r st = some (0, st') ∧
      st' = L.foldl (fun s d => (net_device_open s d).2)
              { st with trace := st.trace ++ [Event.intr_run] } ∧
      st'.trace = st.trace ++ [Event.intr_run] ++ L.flatMap (open_calls st) ∧
      ∀ d ∈ L, NET_DEVICE_IS_UP (st.heap d) = 0 →
        ((st.heap d).ops.open = none ∨
          ∃ f, (st.heap d).ops.open = some f ∧ 0 ≤ f st.mem d) →
        NET_DEVICE_IS_UP (st'.heap d) ≠ 0 := by
  have hnd := device_chain_nodup st.heap L st.devices hchain
  have hloop := net_run_loop_chain L fuel { st with trace := st.trace ++ [Event.intr_run] }
    st.devices hchain hfuel
  refine ⟨_, ?_, rfl, ?_, ?_⟩
  · simp only [net_run, hr, if_false, hloop]
  · rw [visit_all_trace (fun s d => (net_device_open s d).2) open_calls
      (fun s d q hq => net_device_open_other s d q hq)
      (fun s d => net_device_open_same_but_flags s d)
      (fun s d => net_device_open_trace s d)
      (fun s s' d h _ => open_calls_congr s s' d h) L _ hnd]
    rfl
  · intro d hd hdown hok
    obtain ⟨s, h1, h2, h3⟩ := visit_all_at (fun s d => (net_device_open s d).2)
      (fun s d q hq => net_device_open_other s d q hq)
      (fun s d => net_device_open_same_but_flags s d) L
      { st with trace := st.trace ++ [Event.intr_run] } d hnd hd
    rw [h3]
    have h1' : s.heap d = st.heap d := h1
    have h2' : s.mem = st.mem := h2
    apply net_device_open_up_after s d
    · rw [h1']; exact hdown
    · rw [h1', h2']; exact hok

/-- Witness for C14 as amended: the registry 3, 2, 1 of down devices, where the open callback of
device 3 fails, that of device 2 succeeds and device 1 has none. -/
theorem net_run_opens_every_device_witness :
    (device_chain sample_registry_down.heap sample_registry_down.devices [3, 2, 1] ∧
      [3, 2, 1].length ≤ 3 ∧ (0 : Int) ≠ -1) ∧
    ∃ st', net_run 3 0 sample_registry_down = some (0, st') ∧
      st'.trace = [Event.intr_run, Event.ops_open 3, Event.ops_open 2] ∧
      NET_DEVICE_IS_UP (st'.heap 2) ≠ 0 ∧ NET_DEVICE_IS_UP (st'.heap 1) ≠ 0 := by
  refine ⟨⟨by decide, by decide, by decide⟩, ?_⟩
  obtain ⟨st', h1, _, h3, h4⟩ := net_run_opens_every_device 3 0 sample_registry_down [3, 2, 1]
    (by decide) (by decide) (by decide)
  refine ⟨st', h1, ?_, ?_, ?_⟩
  · rw [h3]; decide
  · exact h4 2 (by decide) (by decide) (Or.inr ⟨fun _ _ => 0, rfl, by decide⟩)
  · exact h4 1 (by decide) (by decide) (Or.inl rfl)

/-- C15, as amended: for a device registry that is a chain ending in `NULL`, with traversal
order `L`, and with fuel for every device, `net_shutdown` returns, having called `net_device_close` once per registered device in
traversal order and then `intr_shutdown`, exactly once and last. Every registered device
that was up and whose close callback is absent or returns a non-negative value is down
afterwards, also when the registry holds a device whose close callback fails; such a device
has its callback called and stays up. -/
theorem net_shutdown_closes_every_device (fuel : Nat) (st : State) (L : List Nat)
    (hchain : device_chain st.heap st.devices L) (hfuel : L.length ≤ fuel) :
    ∃ st', net_shutdown fuel st = some st' ∧
      st'.heap = (L.foldl (fun s d => (net_device_close s d).2) st).heap ∧
      st'.trace = st.trace ++ L.flatMap (close_calls st) ++ [Event.intr_shutdown] ∧
      Event.intr_shutdown ∉ L.flatMap (close_calls st) ∧
      (∀ d ∈ L, NET_DEVICE_IS_UP (st.heap d) ≠ 0 →
        ((st.heap d).ops.close = none ∨
          ∃ f, (st.heap d).ops.close = some f ∧ 0 ≤ f st.mem d) →
        NET_DEVICE_IS_UP (st'.heap d) = 0) ∧
      (∀ bad ∈ L, NET_DEVICE_IS_UP (st.heap bad) ≠ 0 →
        (∃ f, (st.heap bad).ops.close = some f ∧ f st.mem bad < 0) →
        NET_DEVICE_IS_UP (st'.heap bad) ≠ 0 ∧
        Event.ops_close bad ∈ L.flatMap (close_calls st)) := by
  have hnd := device_chain_nodup st.heap L st.devices hchain
  have hloop := net_shutdown_loop_chain L fuel st st.devices hchain hfuel
  have hat := visit_all_at (fun s d => (net_device_close s d).2)
    (fun s d q hq => net_device_close_other s d q hq)
    (fun s d => net_device_close_same_but_flags s d) L st
  refine ⟨{ L.foldl (fun s d => (net_device_close s d).2) st with
            trace := (L.foldl (fun s d => (net_device_close s d).2) st).trace
              ++ [Event.intr_shutdown] },
    by simp only [net_shutdown, hloop], rfl, ?_, ?_, ?_, ?_⟩
  · show (L.foldl (fun s d => (net_device_close s d).2) st).trace ++ [Event.intr_shutdown] = _
    rw [visit_all_trace (fun s d => (net_device_close s d).2) close_calls
      (fun s d q hq => net_device_close_other s d q hq)
      (fun s d => net_device_close_same_but_flags s d)
      (fun s d => net_device_close_trace s d)
      (fun s s' d h _ => close_calls_congr s s' d h) L _ hnd]
  · intro hmem
    obtain ⟨d, _, hd⟩ := List.mem_flatMap.mp hmem
    unfold close_calls at hd
    split at hd <;> simp at hd
  · intro d hd hup hok
    obtain ⟨s, h1, h2, h3⟩ := hat d hnd hd
    show NET_DEVICE_IS_UP ((L.foldl (fun s d => (net_device_close s d).2) st).heap d) = 0
    rw [h3]
    apply net_device_close_down_after s d
    · rw [h1]; exact hup
    · rw [h1, h2]; exact hok
  · intro bad hbad hup hfail
    obtain ⟨f, hf, hneg⟩ := hfail
    obtain ⟨s, h1, h2, h3⟩ := hat bad hnd hbad
    constructor
    · show NET_DEVICE_IS_UP
        ((L.foldl (fun s d => (net_device_close s d).2) st).heap bad) ≠ 0
      rw [h3]
      apply net_device_close_up_after s bad f
      · rw [h1]; exact hup
      · rw [h1]; exact hf
      · rw [h2]; exact hneg
    · refine List.mem_flatMap.mpr ⟨bad, hbad, ?_⟩
      simp [close_calls, hup, hf]

/-- Witness for C15 as amended: the registry 3, 2, 1 of up devices, where the close callback of
device 2 always fails, that of device 3 succeeds and device 1 has none. -/
theorem net_shutdown_closes_every_device_witness :
    (device_chain sample_registry_up.heap sample_registry_up.devices [3, 2, 1] ∧
      [3, 2, 1].length ≤ 3) ∧
    ∃ st', net_shutdown 3 sample_registry_up = some st' ∧
      st'.trace = [Event.ops_close 3, Event.ops_close 2, Event.intr_shutdown] ∧
      NET_DEVICE_IS_UP (st'.heap 3) = 0 ∧ NET_DEVICE_IS_UP (st'.heap 1) = 0 ∧
      NET_DEVICE_IS_UP (st'.heap 2) ≠ 0 := by
  refine ⟨⟨by decide, by decide⟩, ?_⟩
  obtain ⟨st', h1, _, h3, _, h5, h6⟩ :=
    net_shutdown_closes_every_device 3 sample_registry_up [3, 2, 1] (by decide) (by decide)
  refine ⟨st', h1, ?_, ?_, ?_, ?_⟩
  · rw [h3]; decide
  · exact h5 3 (by decide) (by decide) (Or.inr ⟨fun _ _ => 0, rfl, by decide⟩)
  · exact h5 1 (by decide) (by decide) (Or.inl rfl)
  · exact (h6 2 (by decide) (by decide) ⟨fun _ _ => -1, rfl, by decide⟩).1

/-! ## Registration order -/

/-- Registering a device that is not in the registry puts it ahead of the others. -/
theorem net_device_register_chain (log_returns : Bool) (sz : Nat) (st : State)
    (L : List Nat) (d : Nat)
    (hchain : device_chain st.heap st.devices L) (hnew : d ∉ L) :
    device_chain (net_device_register log_returns sz st d).2.heap
      (net_device_register log_returns sz st d).2.devices (d :: L) := by
  rw [net_device_register_state]
  simp only [State.store, device_chain, Function.update_same, true_and]
  refine (device_chain_congr _ st.heap L st.devices ?_).mpr hchain
  intro q hq
  have hne : q ≠ d := fun h => hnew (h ▸ hq)
  rw [Function.update_noteq hne]

/-- Registering pairwise distinct devices that are not in the registry puts them ahead of
the others, the last registered first. -/
theorem net_device_register_seq_chain (sz : Nat) :
    ∀ (ds : List Nat) (st : State) (L : List Nat),
      device_chain st.heap st.devices L → ds.Nodup → (∀ d ∈ ds, d ∉ L) →
      device_chain (net_device_register_seq sz st ds).2.heap
        (net_device_register_seq sz st ds).2.devices (ds.reverse ++ L) := by
  intro ds
  induction ds with
  | nil => intro st L h _ _; simpa [net_device_register_seq] using h
  | cons d rest ih =>
    intro st L hchain hnd hnew
    obtain ⟨hd, hrest⟩ := List.nodup_cons.mp hnd
    have h1 := net_device_register_chain true sz st L d hchain
      (hnew d (List.mem_cons_self _ _))
    have h2 := ih (net_device_register true sz st d).2 (d :: L) h1 hrest (by
      intro q hq hmem
      rcases List.mem_cons.mp hmem with h | h
      · exact hd (h ▸ hq)
      · exact hnew q (List.mem_cons_of_mem _ hq) h)
    simpa [net_device_register_seq, List.reverse_cons, List.append_assoc] using h2

/-- C20, as amended: for a device registry with traversal order `L`, registering a device
`d` that is not already in `L` makes the traversal order `d` followed by `L`, whatever the
`infof` call of the registration does; registering pairwise distinct devices `ds` that are
not in `L`, in that order, makes it the reverse of `ds` followed by `L` (the reverse
registration order when the registry was empty); and that is the order in which the loops
of `net_run` and `net_shutdown` visit the devices. -/
theorem net_device_register_prepends (IFNAMSIZ : Nat) (st : State) (L ds : List Nat)
    (hchain : device_chain st.heap st.devices L) (hnd : ds.Nodup)
    (hnew : ∀ d ∈ ds, d ∉ L) :
    (∀ log_returns d, d ∉ L →
      device_chain (net_device_register log_returns IFNAMSIZ st d).2.heap
        (net_device_register log_returns IFNAMSIZ st d).2.devices (d :: L)) ∧
    device_chain (net_device_register_seq IFNAMSIZ st ds).2.heap
      (net_device_register_seq IFNAMSIZ st ds).2.devices (ds.reverse ++ L) ∧
    (∀ fuel, (ds.reverse ++ L).length ≤ fuel →
      net_run_loop fuel (net_device_register_seq IFNAMSIZ st ds).2
          (net_device_register_seq IFNAMSIZ st ds).2.devices
        = some ((ds.reverse ++ L).foldl (fun s d => (net_device_open s d).2)
            (net_device_register_seq IFNAMSIZ st ds).2) ∧
      net_shutdown_loop fuel (net_device_register_seq IFNAMSIZ st ds).2
          (net_device_register_seq IFNAMSIZ st ds).2.devices
        = some ((ds.reverse ++ L).foldl (fun s d => (net_device_close s d).2)
            (net_device_register_seq IFNAMSIZ st ds).2)) := by
  have hseq := net_device_register_seq_chain IFNAMSIZ ds st L hchain hnd hnew
  refine ⟨fun log_returns d hd =>
    net_device_register_chain log_returns IFNAMSIZ st L d hchain hd, hseq, ?_⟩
  intro fuel hfuel
  exact ⟨net_run_loop_chain _ fuel _ _ hseq hfuel, net_shutdown_loop_chain _ fuel _ _ hseq hfuel⟩

/-- Witness for C20 as amended: devices 5, 6, 7 registered in that order into the empty
registry of the initial state are traversed in the order 7, 6, 5. -/
theorem net_device_register_prepends_witness :
    (device_chain initial.heap initial.devices [] ∧ [5, 6, 7].Nodup ∧
      ∀ d ∈ [5, 6, 7], d ∉ ([] : List Nat)) ∧
    device_chain (net_device_register_seq 16 initial [5, 6, 7]).2.heap
      (net_device_register_seq 16 initial [5, 6, 7]).2.devices ([5, 6, 7].reverse ++ []) ∧
    [5, 6, 7].reverse ++ [] = [7, 6, 5] :=
  ⟨⟨by decide, by decide, by decide⟩,
    (net_device_register_prepends 16 initial [] [5, 6, 7] (by decide) (by decide)
      (by decide)).2.1, by decide⟩

/-- A record whose `next` points to the record itself starts no chain that ends. -/
theorem device_chain_self_cycle (heap : Nat → net_device) (d : Nat)
    (hnext : (heap d).next = some d) : ∀ L, ¬ device_chain heap (some d) L := by
  intro L hL
  cases L with
  | nil => exact hL
  | cons q rest =>
    have hL' := hL
    obtain ⟨_, hrest⟩ := hL
    rw [hnext] at hrest
    have := device_chain_unique _ _ _ _ hrest hL'
    have hlen := congrArg List.length this
    simp at hlen

/-- From a record whose `next` points to the record itself the loop of `net_run` does not
end, whatever the fuel. -/
theorem net_run_loop_self_cycle (d : Nat) :
    ∀ (fuel : Nat) (s : State) (x : Option Nat), x = some d → (s.heap d).next = some d →
      net_run_loop fuel s x = none := by
  intro fuel
  induction fuel with
  | zero => intro s x hx _; rw [hx]; rfl
  | succ n ih =>
    intro s x hx hnext
    have hs := net_device_open_same_but_flags s d
    have hnext' : ((net_device_open s d).2.heap d).next = some d := by
      obtain ⟨fl, e⟩ := hs.2.2.2.2 d
      rw [e]; exact hnext
    rw [hx]
    simp only [net_run_loop]
    exact ih _ _ hnext' hnext'

/-- From a record whose `next` points to the record itself the loop of `net_shutdown` does
not end, whatever the fuel. -/
theorem net_shutdown_loop_self_cycle (d : Nat) :
    ∀ (fuel : Nat) (s : State) (x : Option Nat), x = some d → (s.heap d).next = some d →
      net_shutdown_loop fuel s x = none := by
  intro fuel
  induction fuel with
  | zero => intro s x hx _; rw [hx]; rfl
  | succ n ih =>
    intro s x hx hnext
    have hs := net_device_close_same_but_flags s d
    have hnext' : ((net_device_close s d).2.heap d).next = some d := by
      obtain ⟨fl, e⟩ := hs.2.2.2.2 d
      rw [e]; exact hnext
    rw [hx]
    simp only [net_shutdown_loop]
    exact ih _ _ hnext' hnext'

/-- Over a registry whose head points to itself `net_run` does not return when `intr_run`
succeeds, whatever the fuel. -/
theorem net_run_self_cycle (fuel : Nat) (r : Int) (s : State) (d : Nat)
    (hdev : s.devices = some d) (hnext : (s.heap d).next = some d) (hr : r ≠ -1) :
    net_run fuel r s = none := by
  have hloop := net_run_loop_self_cycle d fuel
    { s with trace := s.trace ++ [Event.intr_run] } s.devices hdev hnext
  simp only [net_run, hr, if_false, hloop]

/-- Over a registry whose head points to itself `net_shutdown` does not return, whatever
the fuel. -/
theorem net_shutdown_self_cycle (fuel : Nat) (s : State) (d : Nat)
    (hdev : s.devices = some d) (hnext : (s.heap d).next = some d) :
    net_shutdown fuel s = none := by
  have hloop := net_shutdown_loop_self_cycle d fuel s s.devices hdev hnext
  simp only [net_shutdown, hloop]

/-- Counterexample to C20 as stated: the registry of the initial state after registering
the device at address 5 has traversal order `[5]`; registering the same device again does
not give the order `[5, 5]`: the record's `next` now points to the record itself, and no
list at all is the traversal order. -/
theorem net_device_register_twice_no_prepend :
    device_chain (net_device_register true 16 initial 5).2.heap
      (net_device_register true 16 initial 5).2.devices [5] ∧
    ¬ device_chain
        (net_device_register true 16 (net_device_register true 16 initial 5).2 5).2.heap
        (net_device_register true 16 (net_device_register true 16 initial 5).2 5).2.devices
        [5, 5] ∧
    ((net_device_register true 16 (net_device_register true 16 initial 5).2 5).2.heap 5).next
      = some 5 ∧
    ∀ L, ¬ device_chain
        (net_device_register true 16 (net_device_register true 16 initial 5).2 5).2.heap
        (net_device_register true 16 (net_device_register true 16 initial 5).2 5).2.devices
        L := by
  refine ⟨by decide, by decide, by decide, ?_⟩
  exact device_chain_self_cycle _ 5 (by decide)

/-- Counterexample to C14 as stated: in the registry that two registrations of the device
at address 5 leave (reached from the initial state through `net_device_register` alone), no
list is the traversal order, and `net_run` with `intr_run` succeeding does not return 0: it
does not return at all, whatever the fuel. -/
theorem net_run_never_returns_after_reregistration :
    (net_device_register true 16 (net_device_register true 16 initial 5).2 5).2.devices
      = some 5 ∧
    ((net_device_register true 16 (net_device_register true 16 initial 5).2 5).2.heap 5).next
      = some 5 ∧
    (∀ fuel r, r ≠ -1 →
      net_run fuel r (net_device_register true 16 (net_device_register true 16 initial 5).2 5).2
        = none) := by
  refine ⟨by decide, by decide, ?_⟩
  intro fuel r hr
  exact net_run_self_cycle fuel r _ 5 (by decide) (by decide) hr

/-- Counterexample to C15 as stated: the device at address 5 of `sample_spy_up` is up and
its close callback always fails; in the registry that two registrations of it leave,
`net_shutdown` does not return, whatever the fuel, so `intr_shutdown` is not reached. -/
theorem net_shutdown_never_returns_after_reregistration :
    (NET_DEVICE_IS_UP (sample_spy_up.heap 5) ≠ 0 ∧
      ∃ f, (sample_spy_up.heap 5).ops.close = some f ∧ ∀ mem d, f mem d < 0) ∧
    (net_device_register true 16
      (net_device_register true 16 sample_spy_up 5).2 5).2.devices = some 5 ∧
    ((net_device_register true 16
      (net_device_register true 16 sample_spy_up 5).2 5).2.heap 5).next = some 5 ∧
    (∀ fuel,
      net_shutdown fuel
        (net_device_register true 16 (net_device_register true 16 sample_spy_up 5).2 5).2
        = none) := by
  refine ⟨⟨by decide, fun _ _ => -1, rfl, fun _ _ => show (-1 : Int) < 0 by decide⟩,
    by decide, by decide, ?_⟩
  intro fuel
  exact net_shutdown_self_cycle fuel _ 5 (by decide) (by decide)

/-! ## Identity of a registered device -/

/-- The function `net_protocol_register` does not touch the device records. -/
theorem net_protocol_register_heap (ok : Bool) (st : State) (t h : Nat) :
    (net_protocol_register ok st t h).2.heap = st.heap := by
  simp only [net_protocol_register]
  split
  · rfl
  · cases ok <;> simp [memory_alloc]

/-- The function `net_input_handler` does not touch the device records. -/
theorem net_input_handler_heap (ok : Bool) (st : State) (t data len d : Nat) :
    (net_input_handler ok st t data len d).2.heap = st.heap := by
  simp only [net_input_handler]
  split <;> rfl

/-- The function `net_device_output` does not touch the device records. -/
theorem net_device_output_heap (st : State) (dev type data len : Nat) (dst : Option Nat) :
    (net_device_output st dev type data len dst).2.heap = st.heap := by
  unfold net_device_output
  dsimp only
  split
  · rfl
  · split
    · rfl
    · split <;> rfl

/-- The loop of `net_run` changes at most the trace and the flags of records. -/
theorem net_run_loop_same_but_flags :
    ∀ (fuel : Nat) (st : State) (x : Option Nat) (st' : State),
      net_run_loop fuel st x = some st' → same_but_flags st st' := by
  intro fuel
  induction fuel with
  | zero =>
    intro st x st' h
    cases x with
    | none => simp [net_run_loop] at h; rw [← h]; exact same_but_flags_refl st
    | some d => simp [net_run_loop] at h
  | succ n ih =>
    intro st x st' h
    cases x with
    | none => simp [net_run_loop] at h; rw [← h]; exact same_but_flags_refl st
    | some d =>
      simp only [net_run_loop] at h
      exact same_but_flags_trans (net_device_open_same_but_flags st d) (ih _ _ _ h)

/-- The loop of `net_shutdown` changes at most the trace and the flags of records. -/
theorem net_shutdown_loop_same_but_flags :
    ∀ (fuel : Nat) (st : State) (x : Option Nat) (st' : State),
      net_shutdown_loop fuel st x = some st' → same_but_flags st st' := by
  intro fuel
  induction fuel with
  | zero =>
    intro st x st' h
    cases x with
    | none => simp [net_shutdown_loop] at h; rw [← h]; exact same_but_flags_refl st
    | some d => simp [net_shutdown_loop] at h
  | succ n ih =>
    intro st x st' h
    cases x with
    | none => simp [net_shutdown_loop] at h; rw [← h]; exact same_but_flags_refl st
    | some d =>
      simp only [net_shutdown_loop] at h
      exact same_but_flags_trans (net_device_close_same_but_flags st d) (ih _ _ _ h)

/-- A state that is `same_but_flags` has the same index and name in every record. -/
theorem same_but_flags_identity {s s' : State} (h : same_but_flags s s') (p : Nat) :
    (s'.heap p).index = (s.heap p).index ∧ (s'.heap p).name = (s.heap p).name := by
  obtain ⟨fl, e⟩ := h.2.2.2.2 p
  rw [e]
  exact ⟨rfl, rfl⟩

/-- One core operation other than a registration of the record at `p` leaves the index and
the name of that record as they are. -/
theorem core_op_apply_identity (st st' : State) (op : core_op) (p : Nat)
    (happly : core_op_apply st op = some st')
    (hother : ∀ log sz, op ≠ core_op.device_register log sz p) :
    (st'.heap p).index = (st.heap p).index ∧ (st'.heap p).name = (st.heap p).name := by
  cases op with
  | protocol_register ok t h =>
    simp only [core_op_apply, Option.some.injEq] at happly
    rw [← happly, net_protocol_register_heap]; exact ⟨rfl, rfl⟩
  | input_handler ok t data len d =>
    simp only [core_op_apply, Option.some.injEq] at happly
    rw [← happly, net_input_handler_heap]; exact ⟨rfl, rfl⟩
  | device_register log sz d =>
    simp only [core_op_apply, Option.some.injEq] at happly
    have hne : p ≠ d := fun h => hother log sz (by rw [h])
    rw [← happly]
    have hheap : (net_device_register log sz st d).2.heap p = st.heap p := by
      rw [net_device_register_state]
      simp only [State.store, Function.update_noteq hne]
    rw [hheap]
    exact ⟨rfl, rfl⟩
  | device_open d =>
    simp only [core_op_apply, Option.some.injEq] at happly
    rw [← happly]
    exact same_but_flags_identity (net_device_open_same_but_flags st d) p
  | device_close d =>
    simp only [core_op_apply, Option.some.injEq] at happly
    rw [← happly]
    exact same_but_flags_identity (net_device_close_same_but_flags st d) p
  | device_output d t data len dst =>
    simp only [core_op_apply, Option.some.injEq] at happly
    rw [← happly, net_device_output_heap]; exact ⟨rfl, rfl⟩
  | run fuel r =>
    simp only [core_op_apply, net_run] at happly
    by_cases hr : r = -1
    · simp only [hr, if_true, Option.map_some', Option.some.injEq] at happly
      rw [← happly]; exact ⟨rfl, rfl⟩
    · simp only [hr, if_false] at happly
      cases hl : net_run_loop fuel { st with trace := st.trace ++ [Event.intr_run] }
          st.devices with
      | none => simp [hl] at happly
      | some s1 =>
        simp only [hl, Option.map_some', Option.some.injEq] at happly
        rw [← happly]
        exact same_but_flags_identity (net_run_loop_same_but_flags fuel _ _ s1 hl) p
  | shutdown fuel =>
    simp only [core_op_apply, net_shutdown] at happly
    cases hl : net_shutdown_loop fuel st st.devices with
    | none => simp [hl] at happly
    | some s1 =>
      simp only [hl, Option.some.injEq] at happly
      rw [← happly]
      exact same_but_flags_identity (net_shutdown_loop_same_but_flags fuel _ _ s1 hl) p

/-- C18, as amended: the index and the name of a device record are left as they are by every
sequence of core operations (`net_device_register` of other records, `net_device_open`,
`net_device_close`, `net_device_output`, `net_protocol_register`, `net_input_handler`,
`net_run`, `net_shutdown`, with any arguments and outcomes, the outcome of an `infof` call
included) that does not register that same record again. -/
theorem device_identity_fixed (ops : List core_op) (st st' : State) (p : Nat)
    (happly : core_ops_apply st ops = some st')
    (hother : ∀ log sz, core_op.device_register log sz p ∉ ops) :
    (st'.heap p).index = (st.heap p).index ∧ (st'.heap p).name = (st.heap p).name := by
  induction ops generalizing st with
  | nil =>
    simp only [core_ops_apply, Option.some.injEq] at happly
    rw [← happly]; exact ⟨rfl, rfl⟩
  | cons op rest ih =>
    simp only [core_ops_apply] at happly
    cases h1 : core_op_apply st op with
    | none => simp [h1] at happly
    | some s1 =>
      simp only [h1] at happly
      have hstep := core_op_apply_identity st s1 op p h1
        (fun log sz h => hother log sz (h ▸ List.mem_cons_self _ _))
      have hrest := ih s1 happly (fun log sz h => hother log sz (List.mem_cons_of_mem _ h))
      exact ⟨hrest.1.trans hstep.1, hrest.2.trans hstep.2⟩

/-- Witness for C18 as amended: after its registration as `net0`, the device at address 5
keeps index and name through the registration of another device, a protocol registration,
`net_run`, an output, an input and `net_shutdown`. -/
theorem device_identity_fixed_witness :
    ((core_ops_apply (net_device_register true 16 initial 5).2
        [.device_register true 16 6, .protocol_register true 0x0800 7, .run 2 0,
         .device_output 5 0x0800 100 0 none, .input_handler true 0x0800 100 4 5,
         .shutdown 2]).isSome = true ∧
      ∀ log sz, core_op.device_register log sz 5 ∉
        [core_op.device_register true 16 6, .protocol_register true 0x0800 7, .run 2 0,
         .device_output 5 0x0800 100 0 none, .input_handler true 0x0800 100 4 5,
         .shutdown 2]) ∧
    ∀ st', core_ops_apply (net_device_register true 16 initial 5).2
        [.device_register true 16 6, .protocol_register true 0x0800 7, .run 2 0,
         .device_output 5 0x0800 100 0 none, .input_handler true 0x0800 100 4 5,
         .shutdown 2] = some st' →
      (st'.heap 5).index = 0 ∧ (st'.heap 5).name = "net0" := by
  have hno : ∀ log sz, core_op.device_register log sz 5 ∉
      [core_op.device_register true 16 6, .protocol_register true 0x0800 7, .run 2 0,
       .device_output 5 0x0800 100 0 none, .input_handler true 0x0800 100 4 5,
       .shutdown 2] := by
    intro log sz h
    simp at h
  refine ⟨⟨by decide, hno⟩, ?_⟩
  intro st' h
  have := device_identity_fixed _ _ st' 5 h hno
  rw [this.1, this.2]
  exact ⟨by decide, by decide⟩

/-- Counterexample to C18 as stated: the device at address 5 is registered from the initial
state and gets index 0 and the name `net0`; a later `net_device_register` of the same
record gives it index 1 and the name `net1`. -/
theorem device_identity_changed_by_reregistration :
    ((net_device_register true 16 initial 5).2.heap 5).index = 0 ∧
    ((net_device_register true 16 initial 5).2.heap 5).name = "net0" ∧
    core_ops_apply (net_device_register true 16 initial 5).2 [core_op.device_register true 16 5]
      = some (net_device_register true 16 (net_device_register true 16 initial 5).2 5).2 ∧
    ((net_device_register true 16 (net_device_register true 16 initial 5).2 5).2.heap 5).index = 1 ∧
    ((net_device_register true 16 (net_device_register true 16 initial 5).2 5).2.heap 5).name
      = "net1" :=
  ⟨by decide, by decide, rfl, by decide, by decide⟩

/-! ## End to end with the dummy driver -/

/-- With the allocation succeeding, `dummy_init` configures the new record as
`dummy_configured` says with the MTU `DUMMY_MTU` and registers it; it returns the address
of the record when the `infof` call of `net_device_register` returns. -/
theorem dummy_init_configures (log_returns : Bool) (p IFNAMSIZ : Nat) (st : State) :
    ∃ s0, dummy_configured (s0.heap p) DUMMY_MTU ∧ s0.devices = st.devices ∧
      s0.protocols = st.protocols ∧ s0.mem = st.mem ∧
      dummy_init true log_returns p IFNAMSIZ st
        = (if log_returns then some (some p) else none,
           (net_device_register log_returns IFNAMSIZ s0 p).2) := by
  let d0 : net_device :=
    { next := none, index := 0, name := "", type := NET_DEVICE_TYPE_DUMMY, mtu := DUMMY_MTU,
      flags := 0, hlen := 0, alen := 0, ops := dummy_ops }
  refine ⟨State.store st p d0, ?_, rfl, rfl, rfl, ?_⟩
  · simp [dummy_configured, State.store, d0]
  · have hs : (State.store (State.store st p zero_device) p
        { (State.store st p zero_device).heap p with
          type := NET_DEVICE_TYPE_DUMMY, mtu := DUMMY_MTU, hlen := 0, alen := 0,
          ops := dummy_ops }) = State.store st p d0 := by
      simp [State.store, zero_device, d0]
    simp only [dummy_init, net_device_alloc, memory_alloc, if_true]
    rw [hs, net_device_register_result]
    cases log_returns <;> simp

/-- Over a registry holding the single device `D`, down and without an open callback,
`net_run` returns 0 and leaves `D` up. -/
theorem net_run_single (fuel : Nat) (r : Int) (s : State) (D : Nat)
    (hchain : device_chain s.heap s.devices [D]) (hfuel : 1 ≤ fuel) (hr : r ≠ -1)
    (hdown : NET_DEVICE_IS_UP (s.heap D) = 0) (hnone : (s.heap D).ops.open = none) :
    net_run fuel r s
      = some (0, State.store { s with trace := s.trace ++ [Event.intr_run] } D
                  { s.heap D with flags := (s.heap D).flags ||| NET_DEVICE_FLAG_UP }) := by
  have hloop := net_run_loop_chain [D] fuel { s with trace := s.trace ++ [Event.intr_run] }
    s.devices hchain (by simpa using hfuel)
  have hopen := net_device_open_absent { s with trace := s.trace ++ [Event.intr_run] } D
    hdown hnone
  simp only [List.foldl_cons, List.foldl_nil, hopen] at hloop
  simp only [net_run, hr, if_false, hloop]

/-- On an up device whose transmit is `dummy_transmit`, `net_device_output` of a frame that
fits the MTU returns 0 with one transmit call. -/
theorem net_device_output_dummy (s : State) (D type data len : Nat) (dst : Option Nat)
    (hup : NET_DEVICE_IS_UP (s.heap D) ≠ 0) (hlen : len ≤ (s.heap D).mtu)
    (hops : (s.heap D).ops = dummy_ops) (ht : type < 2 ^ 16) :
    net_device_output s D type data len dst
      = (0, { s with trace := s.trace ++ [Event.ops_transmit D type data len dst] }) := by
  rw [net_device_output_pass s D type data len dst hup hlen, Nat.mod_eq_of_lt ht, hops]
  rfl

/-- When the registry is the single record of type `t` with an empty queue, a delivery for
`t` with the allocation succeeding leaves the registry with that one entry queued. -/
theorem net_input_handler_single (s : State) (t H data len D : Nat) (ht : t < 2 ^ 16)
    (hp : s.protocols = [{ type := t, queue := ⟨[], 0⟩, handler := H }]) :
    net_input_handler true s t data len D
      = (0, { s with
              protocols := [{ type := t,
                              queue := { entries := [{ dev := D, len := len,
                                                       data := memcpy s.mem data len }],
                                         num := 1 },
                              handler := H }] }) := by
  have hmod : t % 2 ^ 16 = t := Nat.mod_eq_of_lt ht
  simp only [net_input_handler, hp, hmod, net_input_handler_loop, if_true, memory_alloc,
    queue_push, List.nil_append, Nat.zero_add]

/-- C16: end to end. Start from a state with both registries empty in which the record at
`D` is configured as the dummy driver configures a freshly allocated one, with MTU `mtu`.
Register `D`, register protocol `0x0800` with handler `H`, and call `net_run` with
`intr_run` not returning -1: it returns 0. Then `net_device_output` of any `len ≤ mtu`
bytes for tag `0x0800` with a `NULL` destination returns 0 with exactly one transmit call
of the driver, for the same payload, in an unchanged memory; and `net_input_handler` for
`0x0800` with that payload and `D` then leaves exactly one entry in the queue of `0x0800`,
holding the `len` bytes the memory holds from address `data` on, so that the drain invokes
`H` exactly once, with those bytes, the length and `D`. The registration is followed
through the state its stores leave, whatever its `infof` call does. -/
theorem dummy_end_to_end (log_returns : Bool) (st : State) (D H mtu IFNAMSIZ fuel : Nat)
    (r : Int)
    (hdevs : st.devices = none) (hprotos : st.protocols = [])
    (hconf : dummy_configured (st.heap D) mtu) (hr : r ≠ -1) (hfuel : 1 ≤ fuel) :
    ∃ s3,
      net_run fuel r
        (net_protocol_register true (net_device_register log_returns IFNAMSIZ st D).2 0x0800 H).2
        = some (0, s3) ∧
      s3.mem = st.mem ∧
      ∀ data len, len ≤ mtu →
        net_device_output s3 D 0x0800 data len none
          = (0, { s3 with
                  trace := s3.trace ++ [Event.ops_transmit D 0x0800 data len none] }) ∧
        (net_input_handler true (net_device_output s3 D 0x0800 data len none).2
          0x0800 data len D).1 = 0 ∧
        (net_input_handler true (net_device_output s3 D 0x0800 data len none).2
          0x0800 data len D).2.protocols
          = [{ type := 0x0800,
               queue := { entries := [{ dev := D, len := len,
                                        data := (List.range len).map
                                          (fun i => st.mem (data + i)) }],
                          num := 1 },
               handler := H }] ∧
        (drain (net_input_handler true (net_device_output s3 D 0x0800 data len none).2
          0x0800 data len D).2).1
          = [{ handler := H, data := (List.range len).map (fun i => st.mem (data + i)),
               len := len, dev := D }] := by
  obtain ⟨_, hmtu, _, _, hops, hflags⟩ := hconf
  generalize hs1 : (net_device_register log_returns IFNAMSIZ st D).2 = s1
  have hchain : device_chain s1.heap s1.devices [D] := by
    rw [← hs1]
    exact net_device_register_chain log_returns IFNAMSIZ st [] D (by rw [hdevs]; trivial)
      (by simp)
  have hrec : (s1.heap D).flags = 0 ∧ (s1.heap D).mtu = mtu ∧ (s1.heap D).ops = dummy_ops := by
    rw [← hs1, net_device_register_state]
    simp [State.store, hflags, hmtu, hops]
  have hs1p : s1.protocols = [] := by rw [← hs1, net_device_register_state]; exact hprotos
  have hs1m : s1.mem = st.mem := by rw [← hs1, net_device_register_state]; rfl
  have hs2 : (net_protocol_register true s1 0x0800 H).2
      = { s1 with protocols := [{ type := 0x0800, queue := ⟨[], 0⟩, handler := H }] } := by
    simp [net_protocol_register, hs1p, net_protocol_register_scan, memory_alloc]
  rw [hs2]
  generalize hs2' :
    ({ s1 with protocols := [{ type := 0x0800, queue := ⟨[], 0⟩, handler := H }] } : State)
      = s2
  have hs2h : s2.heap = s1.heap := by rw [← hs2']
  have hs2d : s2.devices = s1.devices := by rw [← hs2']
  have hs2p : s2.protocols = [{ type := 0x0800, queue := ⟨[], 0⟩, handler := H }] := by
    rw [← hs2']
  have hs2m : s2.mem = st.mem := by rw [← hs2']; exact hs1m
  have hrun := net_run_single fuel r s2 D (by rw [hs2h, hs2d]; exact hchain) hfuel hr
    (by show (s2.heap D).flags &&& NET_DEVICE_FLAG_UP = 0
        rw [hs2h, hrec.1]; decide)
    (by rw [hs2h, hrec.2.2]; rfl)
  refine ⟨_, hrun, hs2m, ?_⟩
  intro data len hlen
  generalize hs3 : State.store { s2 with trace := s2.trace ++ [Event.intr_run] } D
    { s2.heap D with flags := (s2.heap D).flags ||| NET_DEVICE_FLAG_UP } = s3
  have hs3rec : (s3.heap D).flags = (s2.heap D).flags ||| NET_DEVICE_FLAG_UP ∧
      (s3.heap D).mtu = (s2.heap D).mtu ∧ (s3.heap D).ops = (s2.heap D).ops := by
    rw [← hs3]; simp [State.store]
  have hs3p : s3.protocols = s2.protocols := by rw [← hs3]; rfl
  have hs3m : s3.mem = st.mem := by rw [← hs3]; exact hs2m
  have hout := net_device_output_dummy s3 D 0x0800 data len none
    (by show (s3.heap D).flags &&& NET_DEVICE_FLAG_UP ≠ 0
        rw [hs3rec.1]; exact flag_up_set _)
    (by rw [hs3rec.2.1, hs2h, hrec.2.1]; exact hlen)
    (by rw [hs3rec.2.2, hs2h, hrec.2.2]) (by decide)
  rw [hout]
  have hin := net_input_handler_single
    { s3 with trace := s3.trace ++ [Event.ops_transmit D 0x0800 data len none] }
    0x0800 H data len D (by decide) (by show s3.protocols = _; rw [hs3p, hs2p])
  rw [hin]
  refine ⟨rfl, rfl, ?_, ?_⟩
  · show [_] = [_]
    unfold memcpy
    rw [show ({ s3 with
                trace := s3.trace ++ [Event.ops_transmit D 0x0800 data len none] } : State).mem
          = st.mem from hs3m]
  · simp only [drain, List.flatMap_cons, List.flatMap_nil, List.map_cons, List.map_nil,
      List.append_nil]
    unfold memcpy
    rw [show ({ s3 with
                trace := s3.trace ++ [Event.ops_transmit D 0x0800 data len none] } : State).mem
          = st.mem from hs3m]

/-- Witness for C16: the scenario with MTU 1500, the device at address 9, handler 7 and the
64-byte payload at address 100, whose bytes are 100, 101, ..., 163. -/
theorem dummy_end_to_end_witness :
    (sample_scenario.devices = none ∧ sample_scenario.protocols = [] ∧
      dummy_configured (sample_scenario.heap 9) 1500 ∧ (0 : Int) ≠ -1 ∧ 1 ≤ 1) ∧
    ∃ s3,
      net_run 1 0
        (net_protocol_register true (net_device_register true 16 sample_scenario 9).2
          0x0800 7).2
        = some (0, s3) ∧
      net_device_output s3 9 0x0800 100 64 none
        = (0, { s3 with trace := s3.trace ++ [Event.ops_transmit 9 0x0800 100 64 none] }) ∧
      (List.range 64).map (fun i => s3.mem (100 + i))
        = [100, 101, 102, 103, 104, 105, 106, 107, 108, 109, 110, 111, 112, 113, 114, 115,
           116, 117, 118, 119, 120, 121, 122, 123, 124, 125, 126, 127, 128, 129, 130, 131,
           132, 133, 134, 135, 136, 137, 138, 139, 140, 141, 142, 143, 144, 145, 146, 147,
           148, 149, 150, 151, 152, 153, 154, 155, 156, 157, 158, 159, 160, 161, 162, 163] ∧
      (drain (net_input_handler true (net_device_output s3 9 0x0800 100 64 none).2
        0x0800 100 64 9).2).1
        = [{ handler := 7,
             data :=
               [100, 101, 102, 103, 104, 105, 106, 107, 108, 109, 110, 111, 112, 113, 114,
                115, 116, 117, 118, 119, 120, 121, 122, 123, 124, 125, 126, 127, 128, 129,
                130, 131, 132, 133, 134, 135, 136, 137, 138, 139, 140, 141, 142, 143, 144,
                145, 146, 147, 148, 149, 150, 151, 152, 153, 154, 155, 156, 157, 158, 159,
                160, 161, 162, 163],
             len := 64, dev := 9 }] := by
  have hc : dummy_configured (sample_scenario.heap 9) 1500 :=
    ⟨rfl, rfl, rfl, rfl, rfl, rfl⟩
  obtain ⟨s3, h1, h2, h3⟩ := dummy_end_to_end true sample_scenario 9 7 1500 16 1 0 rfl rfl hc
    (by decide) (by decide)
  have hbytes : (List.range 64).map (fun i => sample_scenario.mem (100 + i))
      = [100, 101, 102, 103, 104, 105, 106, 107, 108, 109, 110, 111, 112, 113, 114, 115,
         116, 117, 118, 119, 120, 121, 122, 123, 124, 125, 126, 127, 128, 129, 130, 131,
         132, 133, 134, 135, 136, 137, 138, 139, 140, 141, 142, 143, 144, 145, 146, 147,
         148, 149, 150, 151, 152, 153, 154, 155, 156, 157, 158, 159, 160, 161, 162, 163] := by
    decide
  refine ⟨⟨rfl, rfl, hc, by decide, by decide⟩, s3, h1, (h3 100 64 (by decide)).1, ?_, ?_⟩
  · rw [h2]; exact hbytes
  · rw [(h3 100 64 (by decide)).2.2.2, hbytes]

end Microps
